import Mathlib

/-!
Verification of `.github/scripts/update_defaults.py` (IoC-Signatures).

The script patches literal `DEFAULT_*` declarations in two files of a
separate scanner repository.  Strings are modelled as `List Char`.  The
only regular expressions the script uses have a very restricted shape, so
they are embedded as dedicated matchers:

* the fallback patterns (e.g.
  `DEFAULT_BAD_PACKAGES\s*:\s*Dict\[\s*str\s*,\s*List\[\s*str\s*\]\]\s*=\s*\{.*?\}`,
  compiled with `re.DOTALL`) are alternating literal / `\s*` tokens
  followed by a lazy `.*?` up to a single closing-bracket character.
  Every `\s*` in them is followed by a literal starting with a
  non-whitespace character, so greedy whitespace munching never needs to
  backtrack and the whole match is deterministic;
* the marker pattern `(re.escape(begin))(.*?)[ \t]*(re.escape(end))`
  (DOTALL) matches at the first occurrence of `begin` that has an
  occurrence of `end` at or after its end; the lazy group stops at the
  first such `end` occurrence and the greedy `[ \t]*` absorbs the maximal
  run of blanks/tabs immediately before it.

Python's `re.subn` treats a string replacement as a *template*:
`\\` collapses to a single backslash, `\n`/`\t`/... become control
characters, `\<digit>` is a group reference, unknown escapes of ASCII
letters raise `re.error` (even when nothing matches, the template is
compiled first), and unknown escapes of non-letters are kept verbatim.
This template processing is embedded by `parseTemplate` / `expandT`
below; named references `\g<...>` never occur in this script's
replacement strings and are mapped to an error.
-/

/-- Characters matched by `\s` in Python 3 `re` on `str` inputs. -/
def isPySpace (c : Char) : Bool :=
  c = ' ' || c = '\t' || c = '\n' || c = '\r' || c = '\x0b' || c = '\x0c' ||
  c = '\x1c' || c = '\x1d' || c = '\x1e' || c = '\x1f' ||
  c.toNat = 0x85 || c.toNat = 0xa0 || c.toNat = 0x1680 ||
  (0x2000 ≤ c.toNat && c.toNat ≤ 0x200a) ||
  c.toNat = 0x2028 || c.toNat = 0x2029 || c.toNat = 0x202f ||
  c.toNat = 0x205f || c.toNat = 0x3000

/-- Characters matched by the character class `[ \t]` (blank or tab). -/
def isHTab (c : Char) : Bool := c = ' ' || c = '\t'

def isDigitCh (c : Char) : Bool := '0' ≤ c && c ≤ '9'

def isOctCh (c : Char) : Bool := '0' ≤ c && c ≤ '7'

def isAsciiLetterCh (c : Char) : Bool :=
  ('a' ≤ c && c ≤ 'z') || ('A' ≤ c && c ≤ 'Z')

def octVal (c : Char) : Nat := c.toNat - '0'.toNat

def digVal (c : Char) : Nat := c.toNat - '0'.toNat

/-- `leadsWith n h` holds when the needle `n` is an initial segment of `h`. -/
def leadsWith : List Char → List Char → Bool
  | [], _ => true
  | _ :: _, [] => false
  | a :: as, b :: bs => if a = b then leadsWith as bs else false

/-- Number of positions of `h` (including its very end) at which `n` occurs. -/
def occCount (n : List Char) : List Char → Nat
  | [] => if leadsWith n [] then 1 else 0
  | c :: cs => (if leadsWith n (c :: cs) then 1 else 0) + occCount n cs

/-- Index of the first occurrence of `n` in `h`, if any. -/
def firstOcc (n : List Char) : List Char → Option Nat
  | [] => if leadsWith n [] then some 0 else none
  | c :: cs =>
    if leadsWith n (c :: cs) then some 0
    else (firstOcc n cs).map (· + 1)

/-- Drop the maximal run of `\s`-whitespace (the effect of a greedy `\s*`
followed by a literal that starts with a non-whitespace character). -/
def dropSpaces : List Char → List Char
  | [] => []
  | c :: cs => if isPySpace c then dropSpaces cs else c :: cs

/-- One token of a fallback pattern: a literal run, or `\s*`. -/
inductive Tok
  | lit (s : List Char)
  | ws
deriving DecidableEq

/-- A fallback pattern: leading tokens (ending in the literal opening
bracket), then the lazy `.*?` up to the single character `close`. -/
structure Pat where
  toks : List Tok
  close : Char
deriving DecidableEq

/-- Match the token prefix of a pattern, returning the remainder. -/
def matchToks : List Tok → List Char → Option (List Char)
  | [], s => some s
  | Tok.lit l :: ts, s =>
    if leadsWith l s then matchToks ts (s.drop l.length) else none
  | Tok.ws :: ts, s => matchToks ts (dropSpaces s)

/-- Lazy `.*?c` under DOTALL: consume up to and including the first `c`. -/
def lazyClose (c : Char) : List Char → Option (List Char)
  | [] => none
  | d :: ds => if d = c then some ds else lazyClose c ds

/-- Match a whole pattern at the head of `s`, returning the remainder. -/
def matchPat (p : Pat) (s : List Char) : Option (List Char) :=
  match matchToks p.toks s with
  | none => none
  | some rest => lazyClose p.close rest

/-- Leftmost match of `p` in `s`: the text before the match and the text
after it (Python `re` scans candidate start positions left to right). -/
def findFirst (p : Pat) : List Char → Option (List Char × List Char)
  | [] =>
    match matchPat p [] with
    | some rest => some ([], rest)
    | none => none
  | c :: cs =>
    match matchPat p (c :: cs) with
    | some rest => some ([], rest)
    | none => (findFirst p cs).map (fun pr => (c :: pr.1, pr.2))

/-- One parsed element of a `re` replacement template. -/
inductive TItem
  | lit (c : Char)
  | grp (n : Nat)
deriving DecidableEq

/-- The Python exceptions the script can raise. -/
inductive PyErr
  | fileNotFound
  | attrError
  | reError
deriving DecidableEq

/-- The `ESCAPES` table used for replacement templates. -/
def escTable (c : Char) : Option Char :=
  if c = 'a' then some '\x07'
  else if c = 'b' then some '\x08'
  else if c = 'f' then some '\x0c'
  else if c = 'n' then some '\n'
  else if c = 'r' then some '\r'
  else if c = 't' then some '\t'
  else if c = 'v' then some '\x0b'
  else if c = '\\' then some '\\'
  else none

/-- Parse a single escape sequence of a `re` replacement template: `c` is
the character right after the backslash and `r1` the rest of the
template.  Returns the produced items and the unconsumed remainder,
closely following CPython's `parse_template`: `\\g` (named references,
unused by this script) and bad escapes raise `re.error`; octal escapes
and numeric group references are recognised; unknown non-letter escapes
stay as-is. -/
def parseEsc (ng : Nat) (c : Char) (r1 : List Char) :
    Except PyErr (List TItem × List Char) :=
  if c = 'g' then Except.error PyErr.reError
  else if c = '0' then
    match r1 with
    | d1 :: r2 =>
      if isOctCh d1 then
        match r2 with
        | d2 :: r3 =>
          if isOctCh d2 then
            Except.ok ([TItem.lit (Char.ofNat ((octVal d1 * 8 + octVal d2) % 256))], r3)
          else Except.ok ([TItem.lit (Char.ofNat (octVal d1 % 256))], r2)
        | [] => Except.ok ([TItem.lit (Char.ofNat (octVal d1 % 256))], [])
      else Except.ok ([TItem.lit '\x00'], r1)
    | [] => Except.ok ([TItem.lit '\x00'], [])
  else if isDigitCh c then
    match r1 with
    | d2 :: r2 =>
      if isDigitCh d2 then
        match r2 with
        | d3 :: r3 =>
          if isOctCh c && isOctCh d2 && isOctCh d3 then
            Except.ok
              ([TItem.lit (Char.ofNat ((octVal c * 64 + octVal d2 * 8 + octVal d3) % 256))], r3)
          else if digVal c * 10 + digVal d2 ≤ ng then
            Except.ok ([TItem.grp (digVal c * 10 + digVal d2)], r2)
          else Except.error PyErr.reError
        | [] =>
          if digVal c * 10 + digVal d2 ≤ ng then
            Except.ok ([TItem.grp (digVal c * 10 + digVal d2)], [])
          else Except.error PyErr.reError
      else if digVal c ≤ ng then Except.ok ([TItem.grp (digVal c)], r1)
      else Except.error PyErr.reError
    | [] =>
      if digVal c ≤ ng then Except.ok ([TItem.grp (digVal c)], [])
      else Except.error PyErr.reError
  else
    match escTable c with
    | some e => Except.ok ([TItem.lit e], r1)
    | none =>
      if isAsciiLetterCh c then Except.error PyErr.reError
      else Except.ok ([TItem.lit '\\', TItem.lit c], r1)

theorem parseEsc_len (ng : Nat) (c : Char) (r1 : List Char) (its : List TItem)
    (rem : List Char) (h : parseEsc ng c r1 = Except.ok (its, rem)) :
    rem.length ≤ r1.length := by
  unfold parseEsc at h
  repeat' split at h
  all_goals simp_all
  all_goals omega

instance {ε α : Type} [DecidableEq ε] [DecidableEq α] : DecidableEq (Except ε α) := fun a b =>
  match a, b with
  | Except.ok x, Except.ok y =>
    if h : x = y then isTrue (by rw [h]) else isFalse (by simp [h])
  | Except.error x, Except.error y =>
    if h : x = y then isTrue (by rw [h]) else isFalse (by simp [h])
  | Except.ok _, Except.error _ => isFalse (by simp)
  | Except.error _, Except.ok _ => isFalse (by simp)

/-- Parse a whole `re` replacement template with `ng` capture groups.
`fuel` only serves to make the recursion structural; every template
element consumes at least one character, so the template's length (the
value `parseTemplate` passes) is always enough and the out-of-fuel
branch is unreachable. -/
def parseTemplateF (ng : Nat) : Nat → List Char → Except PyErr (List TItem)
  | _, [] => Except.ok []
  | 0, _ :: _ => Except.error PyErr.reError
  | fuel + 1, c :: rest =>
    if c = '\\' then
      match rest with
      | [] => Except.error PyErr.reError
      | d :: r1 =>
        match parseEsc ng d r1 with
        | Except.error e => Except.error e
        | Except.ok (its, rem) => (parseTemplateF ng fuel rem).map (fun ts => its ++ ts)
    else (parseTemplateF ng fuel rest).map (fun ts => TItem.lit c :: ts)

def parseTemplate (ng : Nat) (l : List Char) : Except PyErr (List TItem) :=
  parseTemplateF ng l.length l

/-- Expand a parsed template, resolving group references through `groups`. -/
def expandT (groups : Nat → List Char) : List TItem → List Char
  | [] => []
  | TItem.lit c :: ts => c :: expandT groups ts
  | TItem.grp n :: ts => groups n ++ expandT groups ts

/-- Template handling of `re.subn`: replacement strings without a
backslash are used literally; otherwise the template is compiled (which
may raise) before any match is attempted. -/
def templateOf (ng : Nat) (repl : List Char) : Except PyErr (List TItem) :=
  if repl.contains '\\' then parseTemplate ng repl else Except.ok (repl.map TItem.lit)

/-- `re.subn(pat, repl, s, count=1, flags=re.DOTALL)` for a fallback
pattern (these patterns contain no capture groups, so `ng = 0`). -/
def subn1 (p : Pat) (repl : List Char) (s : List Char) :
    Except PyErr (List Char × Bool) :=
  match templateOf 0 repl with
  | Except.error e => Except.error e
  | Except.ok items =>
    match findFirst p s with
    | none => Except.ok (s, false)
    | some pr => Except.ok (pr.1 ++ expandT (fun _ => []) items ++ pr.2, true)

/-- `replace_first` (update_defaults.py, lines 40-49): try the patterns in
order, replace the first match of the first matching pattern, and report
which pattern was used. -/
def replace_first (s : List Char) (pats : List Pat) (repl : List Char) :
    Except PyErr (List Char × Bool × Option Pat) :=
  match pats with
  | [] => Except.ok (s, false, none)
  | p :: ps =>
    match subn1 p repl s with
    | Except.error e => Except.error e
    | Except.ok (s2, true) => Except.ok (s2, true, some p)
    | Except.ok (_, false) => replace_first s ps repl

/-- `replace_between_marks` (update_defaults.py, lines 52-63): replace, on
the single leftmost occurrence, the text between the two markers
(`(escape begin)(.*?)[ \t]*(escape end)` under DOTALL) with
`\1 payload \3`.  The replacement string always contains backslashes, so
its template is always compiled, before any match is attempted. -/
def replace_between_marks (src begMark endMark payload : List Char) :
    Except PyErr (List Char × Bool) :=
  match parseTemplate 3 ('\\' :: '1' :: payload ++ ['\\', '3']) with
  | Except.error e => Except.error e
  | Except.ok items =>
    match firstOcc begMark src with
    | none => Except.ok (src, false)
    | some b =>
      let rest := src.drop (b + begMark.length)
      match firstOcc endMark rest with
      | none => Except.ok (src, false)
      | some q =>
        let j := ((rest.take q).reverse.takeWhile isHTab).length
        let g2 := rest.take (q - j)
        let groups := fun n =>
          if n = 1 then begMark else if n = 2 then g2
          else if n = 3 then endMark else []
        Except.ok
          (src.take b ++ expandT groups items ++ rest.drop (q + endMark.length),
           true)

/-!
JSON values and `dumps_python` (update_defaults.py, lines 31-37).

The signature documents the script reads hold only strings, arrays and
string-keyed objects, so other JSON scalars are not represented.
`dumps_python` is `json.dumps(value, indent=4, ensure_ascii=False,
sort_keys=True)`: four-space indentation, `", "` key separator, `",\n"`
item separator, keys sorted by code point, `"` `\` and control
characters escaped (with the short escapes `\b \t \n \f \r` and `\uXXXX`
otherwise), everything else kept as-is.
-/

inductive JVal
  | str (s : List Char)
  | arr (xs : List JVal)
  | obj (fields : List (List Char × JVal))

def hexDigit (n : Nat) : Char :=
  if n < 10 then Char.ofNat ('0'.toNat + n) else Char.ofNat ('a'.toNat + n - 10)

def escapeJsonChar (c : Char) : List Char :=
  if c = '"' then ['\\', '"']
  else if c = '\\' then ['\\', '\\']
  else if c = '\n' then ['\\', 'n']
  else if c = '\t' then ['\\', 't']
  else if c = '\r' then ['\\', 'r']
  else if c = '\x08' then ['\\', 'b']
  else if c = '\x0c' then ['\\', 'f']
  else if c.toNat < 0x20 then
    ['\\', 'u', '0', '0', hexDigit (c.toNat / 16), hexDigit (c.toNat % 16)]
  else [c]

/-- Render a JSON string literal. -/
def jstr (s : List Char) : List Char :=
  '"' :: (s.map escapeJsonChar).flatten ++ ['"']

/-- Indentation for nesting level `n` (`indent=4`). -/
def pad (n : Nat) : List Char := List.replicate (4 * n) ' '

def joinSep (sep : List Char) : List (List Char) → List Char
  | [] => []
  | [x] => x
  | x :: y :: rest => x ++ sep ++ joinSep sep (y :: rest)

/-- Code-point lexicographic order on strings, as Python compares `str`. -/
def lexLt : List Char → List Char → Bool
  | [], [] => false
  | [], _ :: _ => true
  | _ :: _, [] => false
  | a :: as, b :: bs =>
    if a.toNat < b.toNat then true
    else if b.toNat < a.toNat then false
    else lexLt as bs

/-- Insert one rendered key/value pair keeping keys sorted ascending. -/
def insRen (x : List Char × List Char) :
    List (List Char × List Char) → List (List Char × List Char)
  | [] => [x]
  | y :: ys => if lexLt y.1 x.1 then y :: insRen x ys else x :: y :: ys

/-- Sort rendered key/value pairs by key (`sort_keys=True`). -/
def sortRendered : List (List Char × List Char) → List (List Char × List Char)
  | [] => []
  | x :: xs => insRen x (sortRendered xs)

mutual

def dumpsV (lvl : Nat) : JVal → List Char
  | JVal.str s => jstr s
  | JVal.arr xs =>
    if xs.isEmpty then ['[', ']']
    else
      '[' :: '\n' ::
        joinSep [',', '\n'] ((dumpsL (lvl + 1) xs).map (fun r => pad (lvl + 1) ++ r)) ++
        '\n' :: pad lvl ++ [']']
  | JVal.obj fs =>
    if fs.isEmpty then ['\x7b', '\x7d']
    else
      '\x7b' :: '\n' ::
        joinSep [',', '\n']
          ((sortRendered (dumpsF (lvl + 1) fs)).map
            (fun kv => pad (lvl + 1) ++ jstr kv.1 ++ ':' :: ' ' :: kv.2)) ++
        '\n' :: pad lvl ++ ['\x7d']

def dumpsL (lvl : Nat) : List JVal → List (List Char)
  | [] => []
  | x :: xs => dumpsV lvl x :: dumpsL lvl xs

def dumpsF (lvl : Nat) :
    List (List Char × JVal) → List (List Char × List Char)
  | [] => []
  | (k, v) :: fs => (k, dumpsV lvl v) :: dumpsF lvl fs

end

/-- `dumps_python` (update_defaults.py, lines 31-37). -/
def dumps_python (v : JVal) : List Char := dumpsV 0 v

/-!
Filesystem model and the two update operations.

Only the two target files of the scanner repository and their `.bak`
siblings can be touched by the script, so the filesystem is modelled as
those four optional file contents.  `write_atomic` (lines 66-78) copies
the prior content to the `.bak` sibling when the target exists (it
always does when the script writes), writes the new content to a
temporary file appending a final newline when missing, and renames it
over the target.
-/

structure FS where
  packagesFile : Option (List Char)
  minersFile : Option (List Char)
  packagesBak : Option (List Char)
  minersBak : Option (List Char)
deriving DecidableEq

def endsWithNl (c : List Char) : Bool :=
  match c.getLast? with
  | some ch => ch = '\n'
  | none => false

/-- The bytes `write_atomic` puts into the target file. -/
def writeAtomicContent (c : List Char) : List Char :=
  if endsWithNl c then c else c ++ ['\n']

/-!
Regex candidates of `update_packages_defaults` (lines 99-102), in the
textual order of the Python source; the doc comment of each gives the
original regex.
-/

/-- `DEFAULT_BAD_PACKAGES\s*:\s*Dict\[\s*str\s*,\s*List\[\s*str\s*\]\]\s*=\s*\{.*?\}` -/
def pat_bad_annot : Pat :=
  ⟨[Tok.lit "DEFAULT_BAD_PACKAGES".data, Tok.ws, Tok.lit ":".data, Tok.ws,
    Tok.lit "Dict[".data, Tok.ws, Tok.lit "str".data, Tok.ws, Tok.lit ",".data,
    Tok.ws, Tok.lit "List[".data, Tok.ws, Tok.lit "str".data, Tok.ws,
    Tok.lit "]]".data, Tok.ws, Tok.lit "=".data, Tok.ws, Tok.lit "\x7b".data],
   '\x7d'⟩

/-- `DEFAULT_BAD_PACKAGES\s*=\s*\{.*?\}` -/
def pat_bad_plain : Pat :=
  ⟨[Tok.lit "DEFAULT_BAD_PACKAGES".data, Tok.ws, Tok.lit "=".data, Tok.ws,
    Tok.lit "\x7b".data], '\x7d'⟩

/-- `DEFAULT_EXTRA_TARGETS\s*:\s*List\[\s*str\s*\]\s*=\s*\[.*?\]` -/
def pat_targets_annot : Pat :=
  ⟨[Tok.lit "DEFAULT_EXTRA_TARGETS".data, Tok.ws, Tok.lit ":".data, Tok.ws,
    Tok.lit "List[".data, Tok.ws, Tok.lit "str".data, Tok.ws, Tok.lit "]".data,
    Tok.ws, Tok.lit "=".data, Tok.ws, Tok.lit "[".data], ']'⟩

/-- `DEFAULT_EXTRA_TARGETS\s*=\s*\[.*?\]` -/
def pat_targets_plain : Pat :=
  ⟨[Tok.lit "DEFAULT_EXTRA_TARGETS".data, Tok.ws, Tok.lit "=".data, Tok.ws,
    Tok.lit "[".data], ']'⟩

/-- `update_packages_defaults` (lines 83-115): mandatory target file,
annotated pattern then plain fallback for each of the two declarations,
single write-back when anything matched.  Errors carry the filesystem at
the moment the exception escapes. -/
def new_bad_payload (bad_packages : JVal) : List Char :=
  "DEFAULT_BAD_PACKAGES: Dict[str, List[str]] = ".data ++ dumps_python bad_packages

def new_targets_payload (extra_targets : JVal) : List Char :=
  "DEFAULT_EXTRA_TARGETS: List[str] = ".data ++ dumps_python extra_targets

def update_packages_defaults (fs : FS) (bad_packages extra_targets : JVal) :
    Except (FS × PyErr) (FS × Bool) :=
  match fs.packagesFile with
  | none => Except.error (fs, PyErr.fileNotFound)
  | some src =>
    let new_bad := new_bad_payload bad_packages
    let new_targets := new_targets_payload extra_targets
    match replace_first src [pat_bad_annot, pat_bad_plain] new_bad with
    | Except.error e => Except.error (fs, e)
    | Except.ok (src1, c_bad, _) =>
      match replace_first src1 [pat_targets_annot, pat_targets_plain] new_targets with
      | Except.error e => Except.error (fs, e)
      | Except.ok (src2, c_targets, _) =>
        if c_bad || c_targets then
          Except.ok
            ({ fs with packagesFile := some (writeAtomicContent src2),
                       packagesBak := some src }, true)
        else Except.ok (fs, false)

/-- Markers expected in miners.py (lines 147-152). -/
def mFileBegin : List Char := "# BEGIN DEFAULT_MINER_FILE_HINTS (AUTO)".data
def mFileEnd : List Char := "# END DEFAULT_MINER_FILE_HINTS (AUTO)".data
def mProcBegin : List Char := "# BEGIN DEFAULT_MINER_PROC_HINTS (AUTO)".data
def mProcEnd : List Char := "# END DEFAULT_MINER_PROC_HINTS (AUTO)".data
def mScrBegin : List Char := "# BEGIN DEFAULT_SUSPICIOUS_SCRIPT_PATTERNS (AUTO)".data
def mScrEnd : List Char := "# END DEFAULT_SUSPICIOUS_SCRIPT_PATTERNS (AUTO)".data

/-- `DEFAULT_MINER_FILE_HINTS\s*:\s*List\[\s*str\s*\]\s*=\s*\[.*?\]` -/
def pat_file_annot : Pat :=
  ⟨[Tok.lit "DEFAULT_MINER_FILE_HINTS".data, Tok.ws, Tok.lit ":".data, Tok.ws,
    Tok.lit "List[".data, Tok.ws, Tok.lit "str".data, Tok.ws, Tok.lit "]".data,
    Tok.ws, Tok.lit "=".data, Tok.ws, Tok.lit "[".data], ']'⟩

/-- `DEFAULT_MINER_FILE_HINTS\s*=\s*\[.*?\]` -/
def pat_file_plain : Pat :=
  ⟨[Tok.lit "DEFAULT_MINER_FILE_HINTS".data, Tok.ws, Tok.lit "=".data, Tok.ws,
    Tok.lit "[".data], ']'⟩

/-- `DEFAULT_MINER_PROC_HINTS\s*:\s*List\[\s*str\s*\]\s*=\s*\[.*?\]` -/
def pat_proc_annot : Pat :=
  ⟨[Tok.lit "DEFAULT_MINER_PROC_HINTS".data, Tok.ws, Tok.lit ":".data, Tok.ws,
    Tok.lit "List[".data, Tok.ws, Tok.lit "str".data, Tok.ws, Tok.lit "]".data,
    Tok.ws, Tok.lit "=".data, Tok.ws, Tok.lit "[".data], ']'⟩

/-- `DEFAULT_MINER_PROC_HINTS\s*=\s*\[.*?\]` -/
def pat_proc_plain : Pat :=
  ⟨[Tok.lit "DEFAULT_MINER_PROC_HINTS".data, Tok.ws, Tok.lit "=".data, Tok.ws,
    Tok.lit "[".data], ']'⟩

/-- `DEFAULT_SUSPICIOUS_SCRIPT_PATTERNS\s*:\s*List\[\s*str\s*\]\s*=\s*\[.*?\]` -/
def pat_scr_annot : Pat :=
  ⟨[Tok.lit "DEFAULT_SUSPICIOUS_SCRIPT_PATTERNS".data, Tok.ws, Tok.lit ":".data,
    Tok.ws, Tok.lit "List[".data, Tok.ws, Tok.lit "str".data, Tok.ws,
    Tok.lit "]".data, Tok.ws, Tok.lit "=".data, Tok.ws, Tok.lit "[".data], ']'⟩

/-- `DEFAULT_SUSPICIOUS_SCRIPT_PATTERNS\s*=\s*\[.*?\]` -/
def pat_scr_plain : Pat :=
  ⟨[Tok.lit "DEFAULT_SUSPICIOUS_SCRIPT_PATTERNS".data, Tok.ws, Tok.lit "=".data,
    Tok.ws, Tok.lit "[".data], ']'⟩

def new_file_payload (file_hints : JVal) : List Char :=
  "DEFAULT_MINER_FILE_HINTS: List[str] = ".data ++ dumps_python file_hints

def new_proc_payload (proc_hints : JVal) : List Char :=
  "DEFAULT_MINER_PROC_HINTS: List[str] = ".data ++ dumps_python proc_hints

def new_scr_payload (script_patterns : JVal) : List Char :=
  "DEFAULT_SUSPICIOUS_SCRIPT_PATTERNS: List[str] = ".data ++ dumps_python script_patterns

/-- `update_miners_defaults` (lines 118-191): optional target file (absent
is non-fatal), marker replacement for all three declarations first; the
regex fallback runs on the original text only when no marker pair
matched at all. -/
def update_miners_defaults (fs : FS)
    (file_hints proc_hints script_patterns : JVal) :
    Except (FS × PyErr) (FS × Bool) :=
  match fs.minersFile with
  | none => Except.ok (fs, false)
  | some src =>
    let new_file := new_file_payload file_hints
    let new_proc := new_proc_payload proc_hints
    let new_scr := new_scr_payload script_patterns
    match replace_between_marks src mFileBegin mFileEnd new_file with
    | Except.error e => Except.error (fs, e)
    | Except.ok (src2, c1) =>
      match replace_between_marks src2 mProcBegin mProcEnd new_proc with
      | Except.error e => Except.error (fs, e)
      | Except.ok (src3, c2) =>
        match replace_between_marks src3 mScrBegin mScrEnd new_scr with
        | Except.error e => Except.error (fs, e)
        | Except.ok (src4, c3) =>
          if c1 || c2 || c3 then
            Except.ok
              ({ fs with minersFile := some (writeAtomicContent src4),
                         minersBak := some src }, true)
          else
            match replace_first src [pat_file_annot, pat_file_plain] new_file with
            | Except.error e => Except.error (fs, e)
            | Except.ok (srcA, d1, _) =>
              match replace_first srcA [pat_proc_annot, pat_proc_plain] new_proc with
              | Except.error e => Except.error (fs, e)
              | Except.ok (srcB, d2, _) =>
                match replace_first srcB [pat_scr_annot, pat_scr_plain] new_scr with
                | Except.error e => Except.error (fs, e)
                | Except.ok (srcC, d3, _) =>
                  if d1 || d2 || d3 then
                    Except.ok
                      ({ fs with minersFile := some (writeAtomicContent srcC),
                                 minersBak := some src }, true)
                  else Except.ok (fs, false)

/-!
The `main` pipeline (update_defaults.py, lines 196-244).

Input JSON documents are modelled as already-parsed `JVal`s; an absent
file is `none` (malformed JSON, which would raise a `json` decode error,
is outside this model — no claim depends on it).  `--dry-run` and
`--verbose` only control `print` statements (lines 226-239), which the
filesystem model does not track, so they do not influence the result.
-/

structure Inputs where
  bad_packages_json : Option JVal
  targets_json : Option JVal
  miner_file_hints_json : Option JVal
  miner_proc_hints_json : Option JVal
  suspicious_patterns_json : Option JVal

/-- `load_json` (lines 25-28): `FileNotFoundError` when the path does not
exist, otherwise the parsed document. -/
def load_json : Option JVal → Except PyErr JVal
  | none => Except.error PyErr.fileNotFound
  | some v => Except.ok v

def lookupField : List (List Char × JVal) → List Char → Option JVal
  | [], _ => none
  | (k, v) :: fs, key => if k = key then some v else lookupField fs key

/-- Python's `value.get(key, default)`: dictionary lookup with a default;
on a non-dict JSON value (`list`, `str`) the attribute access raises
`AttributeError`. -/
def jget (v : JVal) (key : List Char) (dflt : JVal) : Except PyErr JVal :=
  match v with
  | JVal.obj fs => Except.ok ((lookupField fs key).getD dflt)
  | _ => Except.error PyErr.attrError

/-- One optional miners document (lines 213-224):
`load_json(...).get("patterns", [])` with only `FileNotFoundError`
caught and replaced by the empty list. -/
def loadOptionalPatterns (doc : Option JVal) : Except PyErr JVal :=
  match load_json doc with
  | Except.error PyErr.fileNotFound => Except.ok (JVal.arr [])
  | Except.error e => Except.error e
  | Except.ok v => jget v "patterns".data (JVal.arr [])

/-- Outcome of one invocation: a normal exit (with the final filesystem,
the two `changed` flags and the `sys.exit` code), an uncaught exception
(CPython then exits with code 1), or an argparse usage error. -/
inductive MainResult
  | ok (fs : FS) (changed_pkg changed_min : Bool) (exit : Nat)
  | fatal (fs : FS) (e : PyErr)
  | usage (fs : FS) (exit : Nat)
deriving DecidableEq

/-- Exit-code computation of `main` (lines 241-244): 2 when either file
reported a change, 0 otherwise. -/
def exitCode (changed : Bool) : Nat := if changed then 2 else 0

/-- `main` (lines 204-244) after argument parsing. -/
def mainRun (dryRun verbose : Bool) (inp : Inputs) (fs : FS) : MainResult :=
  match load_json inp.bad_packages_json with
  | Except.error e => MainResult.fatal fs e
  | Except.ok bad_packages =>
    match load_json inp.targets_json with
    | Except.error e => MainResult.fatal fs e
    | Except.ok tdoc =>
      match jget tdoc "extra_targets".data (JVal.arr []) with
      | Except.error e => MainResult.fatal fs e
      | Except.ok extra_targets =>
        match loadOptionalPatterns inp.miner_file_hints_json with
        | Except.error e => MainResult.fatal fs e
        | Except.ok file_hints =>
          match loadOptionalPatterns inp.miner_proc_hints_json with
          | Except.error e => MainResult.fatal fs e
          | Except.ok proc_hints =>
            match loadOptionalPatterns inp.suspicious_patterns_json with
            | Except.error e => MainResult.fatal fs e
            | Except.ok script_patterns =>
              match update_packages_defaults fs bad_packages extra_targets with
              | Except.error (fs1, e) => MainResult.fatal fs1 e
              | Except.ok (fs1, changed_pkg) =>
                match update_miners_defaults fs1 file_hints proc_hints script_patterns with
                | Except.error (fs2, e) => MainResult.fatal fs2 e
                | Except.ok (fs2, changed_min) =>
                  MainResult.ok fs2 changed_pkg changed_min
                    (exitCode (changed_pkg || changed_min))

structure Args where
  scanner_root : List Char
  dry_run : Bool
  verbose : Bool
deriving DecidableEq

/-- `argparse`'s `parser.error` exits the process with status 2. -/
def argparseUsageExitCode : Nat := 2

def isFlagArg (a : List Char) : Bool := leadsWith ['-'] a

/-- `parse_args` (lines 196-201): one required positional, the options
`--dry-run` and `-v`/`--verbose`; anything else (unknown option, missing
or extra positional) is a usage error, which argparse reports by exiting
with `argparseUsageExitCode`. -/
def parse_args (argv : List (List Char)) : Except Nat Args :=
  let flags := argv.filter isFlagArg
  let pos := argv.filter (fun a => !isFlagArg a)
  if flags.any (fun f =>
      !(f = "--dry-run".data || f = "-v".data || f = "--verbose".data)) then
    Except.error argparseUsageExitCode
  else
    match pos with
    | [root] =>
      Except.ok
        ⟨root, flags.contains "--dry-run".data,
         flags.contains "-v".data || flags.contains "--verbose".data⟩
    | _ => Except.error argparseUsageExitCode

/-- One whole invocation of the script. -/
def runScript (argv : List (List Char)) (inp : Inputs) (fs : FS) : MainResult :=
  match parse_args argv with
  | Except.error code => MainResult.usage fs code
  | Except.ok args => mainRun args.dry_run args.verbose inp fs

/-!
Infrastructure about occurrences, used to pin down where the matchers
fire on decomposed file contents.
-/

theorem leadsWith_append (n t : List Char) : leadsWith n (n ++ t) = true := by
  induction n with
  | nil => rfl
  | cons c cs ih => simp [leadsWith, ih]

theorem leadsWith_eq (n : List Char) :
    ∀ h : List Char, leadsWith n h = true → ∃ t, h = n ++ t := by
  induction n with
  | nil => exact fun h _ => ⟨h, rfl⟩
  | cons c cs ih =>
    intro h hl
    cases h with
    | nil => simp [leadsWith] at hl
    | cons b bs =>
      simp only [leadsWith] at hl
      split at hl
      · rcases ih bs hl with ⟨t, ht⟩
        rename_i hcb
        exact ⟨t, by simp [hcb, ht]⟩
      · exact absurd hl (by simp)

theorem occCount_pos (n : List Char) :
    ∀ (h : List Char) (k : Nat), leadsWith n (h.drop k) = true →
    1 ≤ occCount n h := by
  intro h
  induction h with
  | nil =>
    intro k hk
    simp only [List.drop_nil] at hk
    simp [occCount, hk]
  | cons c cs ih =>
    intro k hk
    cases k with
    | zero =>
      simp only [List.drop_zero] at hk
      simp [occCount, hk]
    | succ k =>
      simp only [List.drop_succ_cons] at hk
      have := ih k hk
      simp only [occCount]
      omega

theorem occCount_two (n : List Char) (hn : n ≠ []) :
    ∀ (h : List Char) (j k : Nat), j < k →
    leadsWith n (h.drop j) = true → leadsWith n (h.drop k) = true →
    2 ≤ occCount n h := by
  intro h
  induction h with
  | nil =>
    intro j k _ hj _
    simp only [List.drop_nil] at hj
    cases n with
    | nil => exact absurd rfl hn
    | cons a as => simp [leadsWith] at hj
  | cons c cs ih =>
    intro j k hjk hj hk
    cases j with
    | zero =>
      cases k with
      | zero => omega
      | succ k =>
        simp only [List.drop_zero] at hj
        simp only [List.drop_succ_cons] at hk
        have := occCount_pos n cs k hk
        simp only [occCount, hj, if_true]
        omega
    | succ j =>
      cases k with
      | zero => omega
      | succ k =>
        simp only [List.drop_succ_cons] at hj hk
        have := ih j k (by omega) hj hk
        simp only [occCount]
        omega

theorem firstOcc_eq (n : List Char) :
    ∀ (h : List Char) (k : Nat), leadsWith n (h.drop k) = true →
    (∀ j < k, leadsWith n (h.drop j) = false) →
    firstOcc n h = some k := by
  intro h
  induction h with
  | nil =>
    intro k hk hfail
    simp only [List.drop_nil] at hk
    cases k with
    | zero => simp [firstOcc, hk]
    | succ k =>
      have := hfail 0 (by omega)
      simp only [List.drop_nil] at this
      rw [this] at hk
      exact absurd hk (by simp)
  | cons c cs ih =>
    intro k hk hfail
    cases k with
    | zero =>
      simp only [List.drop_zero] at hk
      simp [firstOcc, hk]
    | succ k =>
      have h0 := hfail 0 (by omega)
      simp only [List.drop_zero] at h0
      simp only [List.drop_succ_cons] at hk
      have hrec := ih k hk (fun j hj => by
        have := hfail (j + 1) (by omega)
        simpa only [List.drop_succ_cons] using this)
      simp [firstOcc, h0, hrec]

theorem fail_before_of_unique (n h : List Char) (hn : n ≠ []) (k : Nat)
    (h1 : occCount n h = 1) (hk : leadsWith n (h.drop k) = true) :
    ∀ j < k, leadsWith n (h.drop j) = false := by
  intro j hj
  cases hcon : leadsWith n (h.drop j) with
  | false => rfl
  | true =>
    have := occCount_two n hn h j k hj hcon hk
    omega

theorem occCount_suffix (n : List Char) (a : List Char) (h : List Char) :
    occCount n h ≤ occCount n (a ++ h) := by
  induction a with
  | nil => simp
  | cons c cs ih =>
    simp only [List.cons_append, occCount, List.append_eq]
    omega

/-!
Replacement-template lemmas: a backslash-free replacement string expands
to itself, and the marker replacement `\1 payload \3` parses to the
begin group, the payload verbatim and the end group whenever the payload
is backslash-free and does not start with a digit.
-/

theorem contains_cons_false {x c : Char} {l : List Char}
    (h : (c :: l).contains x = false) : c ≠ x ∧ l.contains x = false := by
  simp only [List.contains, List.elem_cons] at h
  constructor
  · intro hcx
    rw [hcx] at h
    simp at h
  · split at h
    · exact absurd h (by simp)
    · simpa [List.contains] using h

theorem expandT_lits (g : Nat → List Char) (l : List Char) (r : List TItem) :
    expandT g (l.map TItem.lit ++ r) = l ++ expandT g r := by
  induction l with
  | nil => rfl
  | cons c cs ih => simp [expandT, ih]

theorem expandT_lits_nil (g : Nat → List Char) (l : List Char) :
    expandT g (l.map TItem.lit) = l := by
  have := expandT_lits g l []
  simpa [expandT] using this

theorem parseTemplateF_lits (ng : Nat) :
    ∀ (f : Nat) (l : List Char), l.length ≤ f → l.contains '\\' = false →
    parseTemplateF ng f l = Except.ok (l.map TItem.lit) := by
  intro f
  induction f with
  | zero =>
    intro l hf _
    cases l with
    | nil => rfl
    | cons c cs => simp at hf
  | succ f ih =>
    intro l hf hbs
    cases l with
    | nil => rfl
    | cons c cs =>
      rcases contains_cons_false hbs with ⟨hc, hcs⟩
      simp only [parseTemplateF, if_neg hc]
      rw [ih cs (by simpa using Nat.le_of_succ_le_succ hf) hcs]
      rfl

theorem parseTemplate_lits (ng : Nat) (l : List Char)
    (hbs : l.contains '\\' = false) :
    parseTemplate ng l = Except.ok (l.map TItem.lit) :=
  parseTemplateF_lits ng l.length l (Nat.le_refl _) hbs

theorem parseTemplateF_g3 (ng : Nat) (h3 : 3 ≤ ng) :
    ∀ (f : Nat) (p : List Char), (p ++ ['\\', '3']).length ≤ f →
    p.contains '\\' = false →
    parseTemplateF ng f (p ++ ['\\', '3'])
      = Except.ok (p.map TItem.lit ++ [TItem.grp 3]) := by
  intro f
  induction f with
  | zero =>
    intro p hf _
    simp at hf
  | succ f ih =>
    intro p hf hbs
    cases p with
    | nil =>
      simp only [List.nil_append, List.map_nil]
      simp only [parseTemplateF, if_pos rfl]
      have hd : isDigitCh '3' = true := by decide
      have hv : digVal '3' = 3 := by decide
      simp only [parseEsc]
      norm_num [hd, hv, h3]
      cases f with
      | zero => rfl
      | succ f => rfl
    | cons c cs =>
      rcases contains_cons_false hbs with ⟨hc, hcs⟩
      simp only [List.cons_append, parseTemplateF, if_neg hc, List.append_eq]
      rw [ih cs (by simpa using Nat.le_of_succ_le_succ hf) hcs]
      rfl

theorem parse_wrap (p : List Char)
    (hbs : p.contains '\\' = false)
    (hhd : ∀ d, p.head? = some d → isDigitCh d = false) :
    parseTemplate 3 ('\\' :: '1' :: p ++ ['\\', '3'])
      = Except.ok (TItem.grp 1 :: (p.map TItem.lit ++ [TItem.grp 3])) := by
  unfold parseTemplate
  have hesc : parseEsc 3 '1' (p ++ ['\\', '3'])
      = Except.ok ([TItem.grp 1], p ++ ['\\', '3']) := by
    cases p with
    | nil => rfl
    | cons c cs =>
      have hcd : isDigitCh c = false := hhd c rfl
      simp only [parseEsc, hcd, List.cons_append]
      rw [if_neg (by decide : ¬ ('1' = 'g')), if_neg (by decide : ¬ ('1' = '0')),
          if_pos (by decide : isDigitCh '1' = true), if_neg (by simp [hcd]),
          if_pos (by decide : digVal '1' ≤ 3), show digVal '1' = 1 from by decide]
  have hlen : ('\\' :: '1' :: p ++ ['\\', '3']).length = (p.length + 3) + 1 := by
    simp
  rw [hlen]
  simp only [parseTemplateF, if_pos rfl, List.cons_append, List.append_eq, hesc]
  rw [parseTemplateF_g3 3 (by omega) (p.length + 3) p (by simp) hbs]
  rfl

/-!
Behaviour of `replace_between_marks` on decomposed file contents.
-/

theorem marks_core (pre mid suf bM eM p : List Char)
    (hB : ∀ j < pre.length,
        leadsWith bM ((pre ++ bM ++ mid ++ eM ++ suf).drop j) = false)
    (hE : ∀ j < mid.length, leadsWith eM ((mid ++ eM ++ suf).drop j) = false)
    (hparse : parseTemplate 3 ('\\' :: '1' :: p ++ ['\\', '3'])
        = Except.ok (TItem.grp 1 :: (p.map TItem.lit ++ [TItem.grp 3]))) :
    replace_between_marks (pre ++ bM ++ mid ++ eM ++ suf) bM eM p
      = Except.ok (pre ++ bM ++ p ++ eM ++ suf, true) := by
  have hd1 : (pre ++ (bM ++ (mid ++ (eM ++ suf)))).drop pre.length
      = bM ++ (mid ++ (eM ++ suf)) := List.drop_left _ _
  have h1 : firstOcc bM (pre ++ bM ++ mid ++ eM ++ suf) = some pre.length := by
    apply firstOcc_eq
    · simpa [List.append_assoc] using
        (hd1 ▸ leadsWith_append bM (mid ++ (eM ++ suf)) : _)
    · intro j hj
      simpa [List.append_assoc] using hB j hj
  have hrest : (pre ++ bM ++ mid ++ eM ++ suf).drop (pre.length + bM.length)
      = mid ++ eM ++ suf := by
    have : pre ++ bM ++ mid ++ eM ++ suf
        = (pre ++ bM) ++ (mid ++ eM ++ suf) := by simp [List.append_assoc]
    rw [this, show pre.length + bM.length = (pre ++ bM).length by simp]
    exact List.drop_left _ _
  have h2 : firstOcc eM (mid ++ eM ++ suf) = some mid.length := by
    apply firstOcc_eq
    · have : (mid ++ (eM ++ suf)).drop mid.length = eM ++ suf :=
        List.drop_left _ _
      simpa [List.append_assoc] using
        (this ▸ leadsWith_append eM suf : _)
    · intro j hj
      exact hE j hj
  have htake : (pre ++ bM ++ mid ++ eM ++ suf).take pre.length = pre := by
    have : pre ++ bM ++ mid ++ eM ++ suf
        = pre ++ (bM ++ (mid ++ (eM ++ suf))) := by simp [List.append_assoc]
    rw [this]
    exact List.take_left _ _
  have hdrop2 : (mid ++ eM ++ suf).drop (mid.length + eM.length) = suf := by
    have : mid ++ eM ++ suf = (mid ++ eM) ++ suf := by simp [List.append_assoc]
    rw [this, show mid.length + eM.length = (mid ++ eM).length by simp]
    exact List.drop_left _ _
  simp only [replace_between_marks, hparse, h1, hrest, h2, hdrop2, htake]
  simp [expandT, expandT_lits, List.append_assoc]

theorem marks_nomatch (src bM eM p : List Char) (items : List TItem)
    (hparse : parseTemplate 3 ('\\' :: '1' :: p ++ ['\\', '3']) = Except.ok items)
    (hno : firstOcc bM src = none) :
    replace_between_marks src bM eM p = Except.ok (src, false) := by
  simp only [replace_between_marks, hparse, hno]

theorem marks_total (src bM eM p : List Char) (items : List TItem)
    (hparse : parseTemplate 3 ('\\' :: '1' :: p ++ ['\\', '3']) = Except.ok items) :
    ∃ out, replace_between_marks src bM eM p = Except.ok out := by
  simp only [replace_between_marks, hparse]
  split
  · exact ⟨_, rfl⟩
  split
  · exact ⟨_, rfl⟩
  · exact ⟨_, rfl⟩

/-!
Behaviour of `findFirst`, `subn1` and `replace_first` on decomposed
contents: leftmost-match localisation and totality for backslash-free
replacement strings.
-/

theorem findFirst_at (p : Pat) :
    ∀ (pre s rest : List Char),
    (∀ j < pre.length, matchPat p ((pre ++ s).drop j) = none) →
    matchPat p s = some rest →
    findFirst p (pre ++ s) = some (pre, rest) := by
  intro pre
  induction pre with
  | nil =>
    intro s rest _ hm
    cases s with
    | nil => simp [findFirst, hm]
    | cons c cs => simp [findFirst, hm]
  | cons c pre ih =>
    intro s rest hfail hm
    have h0 := hfail 0 (by simp)
    simp only [List.cons_append, List.drop_zero] at h0
    have hrec := ih s rest (fun j hj => by
      have := hfail (j + 1) (by simp only [List.length_cons]; omega)
      simpa only [List.cons_append, List.drop_succ_cons] using this) hm
    simp [findFirst, h0, hrec]

theorem findFirst_none_all (p : Pat) :
    ∀ s : List Char, (∀ j, matchPat p (s.drop j) = none) →
    findFirst p s = none := by
  intro s
  induction s with
  | nil =>
    intro h
    have := h 0
    simp only [List.drop_zero] at this
    simp [findFirst, this]
  | cons c cs ih =>
    intro h
    have h0 := h 0
    simp only [List.drop_zero] at h0
    have hrec := ih (fun j => by
      have := h (j + 1)
      simpa only [List.drop_succ_cons] using this)
    simp [findFirst, h0, hrec]

theorem findFirst_isSome (p : Pat) :
    ∀ (s : List Char) (k : Nat) (r : List Char),
    matchPat p (s.drop k) = some r → findFirst p s ≠ none := by
  intro s
  induction s with
  | nil =>
    intro k r h
    simp only [List.drop_nil] at h
    simp [findFirst, h]
  | cons c cs ih =>
    intro k r h
    cases k with
    | zero =>
      simp only [List.drop_zero] at h
      simp [findFirst, h]
    | succ k =>
      simp only [List.drop_succ_cons] at h
      cases hm : matchPat p (c :: cs) with
      | some rest => simp [findFirst, hm]
      | none =>
        have := ih k r h
        simp only [findFirst, hm]
        cases hf : findFirst p cs with
        | none => exact absurd hf this
        | some pr => simp

theorem subn1_nobs_match (p : Pat) (repl s a b : List Char)
    (hbs : repl.contains '\\' = false)
    (hf : findFirst p s = some (a, b)) :
    subn1 p repl s = Except.ok (a ++ repl ++ b, true) := by
  simp only [subn1, templateOf, hbs, Bool.false_eq_true, if_false, hf]
  rw [expandT_lits_nil]

theorem subn1_nobs_nomatch (p : Pat) (repl s : List Char)
    (hbs : repl.contains '\\' = false)
    (hf : findFirst p s = none) :
    subn1 p repl s = Except.ok (s, false) := by
  simp only [subn1, templateOf, hbs, Bool.false_eq_true, if_false, hf]

theorem replace_first_nil (s repl : List Char) :
    replace_first s [] repl = Except.ok (s, false, none) := rfl

theorem replace_first_cons_nomatch (p : Pat) (ps : List Pat)
    (s repl : List Char) (hbs : repl.contains '\\' = false)
    (hf : findFirst p s = none) :
    replace_first s (p :: ps) repl = replace_first s ps repl := by
  simp only [replace_first, subn1_nobs_nomatch p repl s hbs hf]

theorem replace_first_cons_match (p : Pat) (ps : List Pat)
    (s repl a b : List Char) (hbs : repl.contains '\\' = false)
    (hf : findFirst p s = some (a, b)) :
    replace_first s (p :: ps) repl = Except.ok (a ++ repl ++ b, true, some p) := by
  simp only [replace_first, subn1_nobs_match p repl s a b hbs hf]

theorem replace_first_nobs_total (s repl : List Char)
    (hbs : repl.contains '\\' = false) :
    ∀ ps : List Pat, ∃ out, replace_first s ps repl = Except.ok out := by
  intro ps
  induction ps with
  | nil => exact ⟨_, rfl⟩
  | cons p ps ih =>
    cases hf : findFirst p s with
    | none =>
      rcases ih with ⟨out, hout⟩
      exact ⟨out, by rw [replace_first_cons_nomatch p ps s repl hbs hf, hout]⟩
    | some pr =>
      exact ⟨_, replace_first_cons_match p ps s repl pr.1 pr.2 hbs hf⟩


/-!
Helper lemmas about the two update operations and the main pipeline.
-/

theorem update_packages_ok_fields (fs : FS) (b t : JVal) (fs2 : FS) (c : Bool)
    (h : update_packages_defaults fs b t = Except.ok (fs2, c)) :
    fs2.minersFile = fs.minersFile ∧ fs2.minersBak = fs.minersBak := by
  cases hp : fs.packagesFile with
  | none => simp [update_packages_defaults, hp] at h
  | some src =>
    cases hr1 : replace_first src [pat_bad_annot, pat_bad_plain] (new_bad_payload b) with
    | error e => simp [update_packages_defaults, hp, hr1] at h
    | ok o1 =>
      obtain ⟨s1, c1, u1⟩ := o1
      cases hr2 : replace_first s1 [pat_targets_annot, pat_targets_plain]
          (new_targets_payload t) with
      | error e => simp [update_packages_defaults, hp, hr1, hr2] at h
      | ok o2 =>
        obtain ⟨s2, c2, u2⟩ := o2
        simp only [update_packages_defaults, hp, hr1, hr2] at h
        split at h
        all_goals
          simp only [Except.ok.injEq, Prod.mk.injEq] at h
          rcases h with ⟨h1, -⟩
          subst h1
          simp

theorem update_packages_total (fs : FS) (b t : JVal) (src : List Char)
    (hp : fs.packagesFile = some src)
    (hb : (new_bad_payload b).contains '\\' = false)
    (ht : (new_targets_payload t).contains '\\' = false) :
    ∃ r, update_packages_defaults fs b t = Except.ok r := by
  obtain ⟨⟨s1, c1, u1⟩, h1⟩ :=
    replace_first_nobs_total src (new_bad_payload b) hb [pat_bad_annot, pat_bad_plain]
  obtain ⟨⟨s2, c2, u2⟩, h2⟩ :=
    replace_first_nobs_total s1 (new_targets_payload t) ht
      [pat_targets_annot, pat_targets_plain]
  simp only [update_packages_defaults, hp, h1, h2]
  split
  · exact ⟨_, rfl⟩
  · exact ⟨_, rfl⟩

theorem update_miners_none (fs : FS) (fh ph sp : JVal)
    (h : fs.minersFile = none) :
    update_miners_defaults fs fh ph sp = Except.ok (fs, false) := by
  simp [update_miners_defaults, h]

theorem payload_head_not_digit_file (fh : JVal) :
    ∀ d, (new_file_payload fh).head? = some d → isDigitCh d = false := by
  intro d hd
  have : (new_file_payload fh).head? = some 'D' := rfl
  rw [this] at hd
  cases hd
  decide

theorem payload_head_not_digit_proc (ph : JVal) :
    ∀ d, (new_proc_payload ph).head? = some d → isDigitCh d = false := by
  intro d hd
  have : (new_proc_payload ph).head? = some 'D' := rfl
  rw [this] at hd
  cases hd
  decide

theorem payload_head_not_digit_scr (sp : JVal) :
    ∀ d, (new_scr_payload sp).head? = some d → isDigitCh d = false := by
  intro d hd
  have : (new_scr_payload sp).head? = some 'D' := rfl
  rw [this] at hd
  cases hd
  decide

theorem update_miners_total (fs : FS) (fh ph sp : JVal)
    (hf : (new_file_payload fh).contains '\\' = false)
    (hh : (new_proc_payload ph).contains '\\' = false)
    (hs : (new_scr_payload sp).contains '\\' = false) :
    ∃ r, update_miners_defaults fs fh ph sp = Except.ok r := by
  have hw1 := parse_wrap (new_file_payload fh) hf (payload_head_not_digit_file fh)
  have hw2 := parse_wrap (new_proc_payload ph) hh (payload_head_not_digit_proc ph)
  have hw3 := parse_wrap (new_scr_payload sp) hs (payload_head_not_digit_scr sp)
  cases hm : fs.minersFile with
  | none => exact ⟨(fs, false), update_miners_none fs fh ph sp hm⟩
  | some src =>
    obtain ⟨⟨s2, c1⟩, ho1⟩ := marks_total src mFileBegin mFileEnd _ _ hw1
    obtain ⟨⟨s3, c2⟩, ho2⟩ := marks_total s2 mProcBegin mProcEnd _ _ hw2
    obtain ⟨⟨s4, c3⟩, ho3⟩ := marks_total s3 mScrBegin mScrEnd _ _ hw3
    obtain ⟨⟨sA, d1, uA⟩, hA⟩ :=
      replace_first_nobs_total src (new_file_payload fh) hf
        [pat_file_annot, pat_file_plain]
    obtain ⟨⟨sB, d2, uB⟩, hB⟩ :=
      replace_first_nobs_total sA (new_proc_payload ph) hh
        [pat_proc_annot, pat_proc_plain]
    obtain ⟨⟨sC, d3, uC⟩, hC⟩ :=
      replace_first_nobs_total sB (new_scr_payload sp) hs
        [pat_scr_annot, pat_scr_plain]
    simp only [update_miners_defaults, hm, ho1, ho2, ho3, hA, hB, hC]
    split
    · exact ⟨_, rfl⟩
    · split
      · exact ⟨_, rfl⟩
      · exact ⟨_, rfl⟩

/-- Forward composition of `main`: when every stage succeeds, the result
is the final filesystem, both flags, and the exit code computed from the
flags. -/
theorem mainRun_eq (d v : Bool) (inp : Inputs) (fs : FS)
    (bp td xt fhv phv spv : JVal) (fs1 fs2 : FS) (cp cm : Bool)
    (h1 : load_json inp.bad_packages_json = Except.ok bp)
    (h2 : load_json inp.targets_json = Except.ok td)
    (h3 : jget td "extra_targets".data (JVal.arr []) = Except.ok xt)
    (h4 : loadOptionalPatterns inp.miner_file_hints_json = Except.ok fhv)
    (h5 : loadOptionalPatterns inp.miner_proc_hints_json = Except.ok phv)
    (h6 : loadOptionalPatterns inp.suspicious_patterns_json = Except.ok spv)
    (h7 : update_packages_defaults fs bp xt = Except.ok (fs1, cp))
    (h8 : update_miners_defaults fs1 fhv phv spv = Except.ok (fs2, cm)) :
    mainRun d v inp fs = MainResult.ok fs2 cp cm (exitCode (cp || cm)) := by
  simp only [mainRun, h1, h2, h3, h4, h5, h6, h7, h8]

/-!
Small shared helpers for the claim theorems.
-/

/-- Decidable form of "the payload does not start with a digit". -/
def headNotDigit (p : List Char) : Bool :=
  match p.head? with
  | some d => !(isDigitCh d)
  | none => true

theorem headNotDigit_spec (p : List Char) (h : headNotDigit p = true) :
    ∀ d, p.head? = some d → isDigitCh d = false := by
  intro d hd
  unfold headNotDigit at h
  rw [hd] at h
  simpa using h

theorem endsWithNl_append_nl (c : List Char) :
    endsWithNl (c ++ ['\n']) = true := by
  simp [endsWithNl, List.getLast?_concat]

theorem writeAtomicContent_idem (c : List Char) :
    writeAtomicContent (writeAtomicContent c) = writeAtomicContent c := by
  by_cases h : endsWithNl c = true
  · simp [writeAtomicContent, h]
  · simp only [writeAtomicContent, h, if_false, Bool.false_eq_true]
    simp [endsWithNl_append_nl]

/-!
Concrete fixtures used by the claim theorems and witnesses.
-/

def pkgsSrc0 : List Char :=
  "DEFAULT_BAD_PACKAGES = \x7b\x7d\nDEFAULT_EXTRA_TARGETS = []\n".data

def pkgsSrc1 : List Char :=
  "DEFAULT_BAD_PACKAGES: Dict[str, List[str]] = \x7b\x7d\nDEFAULT_EXTRA_TARGETS: List[str] = []\n".data

def fsPkgs0 : FS := ⟨some pkgsSrc0, none, none, none⟩

def inpEmpty : Inputs := ⟨some (JVal.obj []), some (JVal.obj []), none, none, none⟩

def badBrace : JVal := JVal.obj [("a\x7d".data, JVal.arr [JVal.str "x".data])]

def pkgsBrace1 : List Char :=
  "DEFAULT_BAD_PACKAGES: Dict[str, List[str]] = \x7b\n    \"a\x7d\": [\n        \"x\"\n    ]\n\x7d\nDEFAULT_EXTRA_TARGETS: List[str] = []\n".data

def pkgsBrace2 : List Char :=
  "DEFAULT_BAD_PACKAGES: Dict[str, List[str]] = \x7b\n    \"a\x7d\": [\n        \"x\"\n    ]\n\x7d\": [\n        \"x\"\n    ]\n\x7d\nDEFAULT_EXTRA_TARGETS: List[str] = []\n".data

/-!
Claim theorems.
-/

set_option maxRecDepth 40000

/-- C1: the spec says `--dry-run` performs all computation and reporting
but skips write-back, and the flag's own argparse help text promises the
same ("N'écrit rien, affiche seulement les actions").  `main` never
passes `args.dry_run` to the update functions (lines 232-233), which
write unconditionally, so the flag only adds a print: with `--dry-run`, a
matching packages.py is rewritten (and a `.bak` created), and the whole
outcome equals the run without the flag.  The spec describes the
documented intent; the code is the slip. -/
theorem c1_dry_run_still_writes :
    runScript ["--dry-run".data, "IoC-Scanner".data] inpEmpty fsPkgs0
      = MainResult.ok ⟨some pkgsSrc1, none, some pkgsSrc0, none⟩ true false 2
    ∧ some pkgsSrc1 ≠ fsPkgs0.packagesFile
    ∧ runScript ["--dry-run".data, "IoC-Scanner".data] inpEmpty fsPkgs0
      = runScript ["IoC-Scanner".data] inpEmpty fsPkgs0 := by
  decide

/-- C2 (counterexample): idempotence fails as claimed.  After one
successful patch of a packages.py with the plain declarations, a second
run with identical data reports `changed = true` again (the annotated
pattern still matches; the flag records a match, not a byte difference)
even though the bytes are identical; and when a serialized key contains
`\x7d`, the lazy `.*?\x7d` boundary falls inside the string on the
second run, so the bytes after run 2 differ from the bytes after
run 1. -/
theorem c2_second_run_counterexample :
    update_packages_defaults fsPkgs0 (JVal.obj []) (JVal.arr [])
      = Except.ok (⟨some pkgsSrc1, none, some pkgsSrc0, none⟩, true)
    ∧ update_packages_defaults ⟨some pkgsSrc1, none, some pkgsSrc0, none⟩
        (JVal.obj []) (JVal.arr [])
      = Except.ok (⟨some pkgsSrc1, none, some pkgsSrc1, none⟩, true)
    ∧ update_packages_defaults fsPkgs0 badBrace (JVal.arr [])
      = Except.ok (⟨some pkgsBrace1, none, some pkgsSrc0, none⟩, true)
    ∧ update_packages_defaults ⟨some pkgsBrace1, none, some pkgsSrc0, none⟩
        badBrace (JVal.arr [])
      = Except.ok (⟨some pkgsBrace2, none, some pkgsBrace1, none⟩, true)
    ∧ pkgsBrace2 ≠ pkgsBrace1 := by
  decide

/-- C2 (amended): a second run is not reported as `changed = false`; the
flag records that a marker pair or pattern matched.  On the marker path,
with unique markers and a template-inert payload, the second replacement
is byte-stable (the bytes after run 2 equal the bytes after run 1) while
still reporting `changed = true`; `write_atomic`'s newline completion is
idempotent, so the written bytes are stable too.  (On the regex path even
byte-stability can fail, see the counterexample.) -/
theorem c2_marker_second_run_byte_stable
    (pre mid suf bM eM p : List Char)
    (hbm : bM ≠ []) (hem : eM ≠ [])
    (h1 : occCount bM (pre ++ bM ++ mid ++ eM ++ suf) = 1)
    (h2 : occCount eM (mid ++ eM ++ suf) = 1)
    (h3 : occCount bM (pre ++ bM ++ p ++ eM ++ suf) = 1)
    (h4 : occCount eM (p ++ eM ++ suf) = 1)
    (hbs : p.contains '\\' = false)
    (hhd : headNotDigit p = true) :
    replace_between_marks (pre ++ bM ++ mid ++ eM ++ suf) bM eM p
      = Except.ok (pre ++ bM ++ p ++ eM ++ suf, true)
    ∧ replace_between_marks (pre ++ bM ++ p ++ eM ++ suf) bM eM p
      = Except.ok (pre ++ bM ++ p ++ eM ++ suf, true)
    ∧ (∀ c, writeAtomicContent (writeAtomicContent c) = writeAtomicContent c) := by
  have hparse := parse_wrap p hbs (headNotDigit_spec p hhd)
  have lead1 : leadsWith bM ((pre ++ bM ++ mid ++ eM ++ suf).drop pre.length) = true := by
    have hd1 : (pre ++ (bM ++ (mid ++ (eM ++ suf)))).drop pre.length
        = bM ++ (mid ++ (eM ++ suf)) := List.drop_left _ _
    simpa [List.append_assoc] using (hd1 ▸ leadsWith_append bM (mid ++ (eM ++ suf)) : _)
  have lead2 : leadsWith eM ((mid ++ eM ++ suf).drop mid.length) = true := by
    have hd2 : (mid ++ (eM ++ suf)).drop mid.length = eM ++ suf := List.drop_left _ _
    simpa [List.append_assoc] using (hd2 ▸ leadsWith_append eM suf : _)
  have lead3 : leadsWith bM ((pre ++ bM ++ p ++ eM ++ suf).drop pre.length) = true := by
    have hd3 : (pre ++ (bM ++ (p ++ (eM ++ suf)))).drop pre.length
        = bM ++ (p ++ (eM ++ suf)) := List.drop_left _ _
    simpa [List.append_assoc] using (hd3 ▸ leadsWith_append bM (p ++ (eM ++ suf)) : _)
  have lead4 : leadsWith eM ((p ++ eM ++ suf).drop p.length) = true := by
    have hd4 : (p ++ (eM ++ suf)).drop p.length = eM ++ suf := List.drop_left _ _
    simpa [List.append_assoc] using (hd4 ▸ leadsWith_append eM suf : _)
  refine ⟨marks_core pre mid suf bM eM p
      (fail_before_of_unique bM _ hbm pre.length h1 lead1)
      (fail_before_of_unique eM _ hem mid.length h2 lead2) hparse,
    marks_core pre p suf bM eM p
      (fail_before_of_unique bM _ hbm pre.length h3 lead3)
      (fail_before_of_unique eM _ hem p.length h4 lead4) hparse,
    writeAtomicContent_idem⟩

/-- C2 amended, witnessed on a concrete miners-style file with the real
marker pair. -/
theorem c2_marker_second_run_byte_stable_witness :
    occCount mFileBegin ("x = 1\n".data ++ mFileBegin ++ "old".data ++ mFileEnd ++ "\ny\n".data) = 1
    ∧ occCount mFileEnd ("old".data ++ mFileEnd ++ "\ny\n".data) = 1
    ∧ occCount mFileBegin ("x = 1\n".data ++ mFileBegin ++ "new".data ++ mFileEnd ++ "\ny\n".data) = 1
    ∧ occCount mFileEnd ("new".data ++ mFileEnd ++ "\ny\n".data) = 1
    ∧ replace_between_marks
        ("x = 1\n".data ++ mFileBegin ++ "old".data ++ mFileEnd ++ "\ny\n".data)
        mFileBegin mFileEnd "new".data
      = Except.ok ("x = 1\n".data ++ mFileBegin ++ "new".data ++ mFileEnd ++ "\ny\n".data, true)
    ∧ replace_between_marks
        ("x = 1\n".data ++ mFileBegin ++ "new".data ++ mFileEnd ++ "\ny\n".data)
        mFileBegin mFileEnd "new".data
      = Except.ok ("x = 1\n".data ++ mFileBegin ++ "new".data ++ mFileEnd ++ "\ny\n".data, true) := by
  have h := c2_marker_second_run_byte_stable "x = 1\n".data "old".data "\ny\n".data
    mFileBegin mFileEnd "new".data (by decide) (by decide) (by decide) (by decide)
    (by decide) (by decide) (by decide) (by decide)
  exact ⟨by decide, by decide, by decide, by decide, h.1, h.2.1⟩

/-- C6 (counterexample): argparse reports usage errors by exiting with
status 2, which is exactly the distinguished changes-were-made code, not
a different one; and the changes-exit-code is keyed on the `changed`
flags, which can be true with byte-identical target files (second run on
an already-patched file), refuting the byte-level "0 iff no changes"
reading as well. -/
theorem c6_usage_exit_equals_change_exit :
    parse_args [] = Except.error 2
    ∧ runScript [] inpEmpty fsPkgs0 = MainResult.usage fsPkgs0 2
    ∧ argparseUsageExitCode = exitCode true
    ∧ runScript ["IoC-Scanner".data] inpEmpty ⟨some pkgsSrc1, none, some pkgsSrc0, none⟩
      = MainResult.ok ⟨some pkgsSrc1, none, some pkgsSrc1, none⟩ true false 2 := by
  decide

/-- C6 (amended): on a run in which every stage succeeds, the exit code
is 2 exactly when at least one target reported `changed` (which records
a match, not a byte difference) and 0 exactly otherwise; argparse usage
errors exit with status 2 as well, the same value as the
changes-were-made code. -/
theorem c6_exit_code_semantics (d v : Bool) (inp : Inputs) (fs : FS)
    (bp td xt fhv phv spv : JVal) (fs1 fs2 : FS) (cp cm : Bool)
    (h1 : load_json inp.bad_packages_json = Except.ok bp)
    (h2 : load_json inp.targets_json = Except.ok td)
    (h3 : jget td "extra_targets".data (JVal.arr []) = Except.ok xt)
    (h4 : loadOptionalPatterns inp.miner_file_hints_json = Except.ok fhv)
    (h5 : loadOptionalPatterns inp.miner_proc_hints_json = Except.ok phv)
    (h6 : loadOptionalPatterns inp.suspicious_patterns_json = Except.ok spv)
    (h7 : update_packages_defaults fs bp xt = Except.ok (fs1, cp))
    (h8 : update_miners_defaults fs1 fhv phv spv = Except.ok (fs2, cm)) :
    mainRun d v inp fs = MainResult.ok fs2 cp cm (exitCode (cp || cm))
    ∧ (exitCode (cp || cm) = 0 ↔ (cp || cm) = false)
    ∧ (exitCode (cp || cm) = 2 ↔ (cp || cm) = true)
    ∧ argparseUsageExitCode = 2 := by
  refine ⟨mainRun_eq d v inp fs bp td xt fhv phv spv fs1 fs2 cp cm
      h1 h2 h3 h4 h5 h6 h7 h8, ?_, ?_, rfl⟩
  · unfold exitCode
    cases (cp || cm) <;> simp
  · unfold exitCode
    cases (cp || cm) <;> simp

/-- C6 amended, witnessed on the concrete empty-data run. -/
theorem c6_exit_code_semantics_witness :
    update_packages_defaults fsPkgs0 (JVal.obj []) (JVal.arr [])
      = Except.ok (⟨some pkgsSrc1, none, some pkgsSrc0, none⟩, true)
    ∧ mainRun false false inpEmpty fsPkgs0
      = MainResult.ok ⟨some pkgsSrc1, none, some pkgsSrc0, none⟩ true false (exitCode (true || false))
    ∧ argparseUsageExitCode = 2 := by
  have h := c6_exit_code_semantics false false inpEmpty fsPkgs0
    (JVal.obj []) (JVal.obj []) (JVal.arr []) (JVal.arr []) (JVal.arr []) (JVal.arr [])
    ⟨some pkgsSrc1, none, some pkgsSrc0, none⟩ ⟨some pkgsSrc1, none, some pkgsSrc0, none⟩
    true false rfl rfl rfl rfl rfl rfl (by decide) (by decide)
  exact ⟨by decide, h.1, h.2.2.2⟩

/-- The plain (unannotated) proc-hints declaration used in the C3
fixtures and theorem. -/
def procPlainDecl : List Char := "DEFAULT_MINER_PROC_HINTS = []".data

def minersMarkerFileOnly : List Char :=
  "# BEGIN DEFAULT_MINER_FILE_HINTS (AUTO)\nX\n# END DEFAULT_MINER_FILE_HINTS (AUTO)\nDEFAULT_MINER_PROC_HINTS = []\n".data

def minersMarkerFileOnlyPatched : List Char :=
  "# BEGIN DEFAULT_MINER_FILE_HINTS (AUTO)DEFAULT_MINER_FILE_HINTS: List[str] = []# END DEFAULT_MINER_FILE_HINTS (AUTO)\nDEFAULT_MINER_PROC_HINTS = []\n".data

/-- C3 (counterexample): declarations are not processed independently.
In a miners.py whose file-hints declaration has its marker pair but
whose proc-hints declaration is a plain assignment with no markers, the
run patches the file-hints block and returns: the proc regex candidates
are never tried — the old `DEFAULT_MINER_PROC_HINTS = []` text survives
and the new proc payload is nowhere in the file — even though the plain
proc candidate does match the file (last conjunct). -/
theorem c3_marker_patch_skips_regex_cex :
    update_miners_defaults ⟨none, some minersMarkerFileOnly, none, none⟩
        (JVal.arr []) (JVal.arr [JVal.str ['p']]) (JVal.arr [])
      = Except.ok (⟨none, some minersMarkerFileOnlyPatched, none, some minersMarkerFileOnly⟩, true)
    ∧ occCount procPlainDecl minersMarkerFileOnlyPatched = 1
    ∧ occCount (new_proc_payload (JVal.arr [JVal.str ['p']])) minersMarkerFileOnlyPatched = 0
    ∧ findFirst pat_proc_plain minersMarkerFileOnlyPatched ≠ none := by
  decide

/-- C3 (amended): the regex fallback is global, not per-declaration: the
regex candidates run only when none of the three marker pairs matched.
When the file-hints marker pair matches but the proc and script marker
pairs are absent, the file is written right after the marker phase: the
plain proc declaration survives verbatim in the written bytes even
though its plain regex candidate matches the written text (second
conjunct).  Only when no marker matched at all does the fallback try
each declaration's candidates, annotated form first. -/
theorem c3_regex_fallback_only_when_no_marker
    (pre m1 mid suf : List Char) (fh ph sp : JVal) (fs : FS)
    (hbsf : (new_file_payload fh).contains '\\' = false)
    (hbsp : (new_proc_payload ph).contains '\\' = false)
    (hbss : (new_scr_payload sp).contains '\\' = false)
    (hB : ∀ j < pre.length, leadsWith mFileBegin
        ((pre ++ mFileBegin ++ m1 ++ mFileEnd ++ (mid ++ procPlainDecl ++ suf)).drop j) = false)
    (hE : ∀ j < m1.length, leadsWith mFileEnd
        ((m1 ++ mFileEnd ++ (mid ++ procPlainDecl ++ suf)).drop j) = false)
    (hP : firstOcc mProcBegin
        (pre ++ mFileBegin ++ new_file_payload fh ++ mFileEnd ++ (mid ++ procPlainDecl ++ suf)) = none)
    (hS : firstOcc mScrBegin
        (pre ++ mFileBegin ++ new_file_payload fh ++ mFileEnd ++ (mid ++ procPlainDecl ++ suf)) = none)
    (hm : fs.minersFile = some (pre ++ mFileBegin ++ m1 ++ mFileEnd ++ (mid ++ procPlainDecl ++ suf))) :
    update_miners_defaults fs fh ph sp
      = Except.ok
          ({ fs with
              minersFile := some (writeAtomicContent
                (pre ++ mFileBegin ++ new_file_payload fh ++ mFileEnd ++ (mid ++ procPlainDecl ++ suf))),
              minersBak := some (pre ++ mFileBegin ++ m1 ++ mFileEnd ++ (mid ++ procPlainDecl ++ suf)) },
            true)
    ∧ findFirst pat_proc_plain
        (pre ++ mFileBegin ++ new_file_payload fh ++ mFileEnd ++ (mid ++ procPlainDecl ++ suf)) ≠ none := by
  have hw1 := parse_wrap (new_file_payload fh) hbsf (payload_head_not_digit_file fh)
  have hw2 := parse_wrap (new_proc_payload ph) hbsp (payload_head_not_digit_proc ph)
  have hw3 := parse_wrap (new_scr_payload sp) hbss (payload_head_not_digit_scr sp)
  have hc1 := marks_core pre m1 (mid ++ procPlainDecl ++ suf)
    mFileBegin mFileEnd (new_file_payload fh) hB hE hw1
  have hc2 := marks_nomatch _ mProcBegin mProcEnd (new_proc_payload ph) _ hw2 hP
  have hc3 := marks_nomatch _ mScrBegin mScrEnd (new_scr_payload sp) _ hw3 hS
  constructor
  · simp only [update_miners_defaults, hm, hc1, hc2, hc3]
    rfl
  · have hdec : pre ++ mFileBegin ++ new_file_payload fh ++ mFileEnd ++ (mid ++ procPlainDecl ++ suf)
        = (pre ++ mFileBegin ++ new_file_payload fh ++ mFileEnd ++ mid) ++ (procPlainDecl ++ suf) := by
      simp [List.append_assoc]
    have hdrop : (pre ++ mFileBegin ++ new_file_payload fh ++ mFileEnd ++ (mid ++ procPlainDecl ++ suf)).drop
        (pre ++ mFileBegin ++ new_file_payload fh ++ mFileEnd ++ mid).length
        = procPlainDecl ++ suf := by
      rw [hdec]
      exact List.drop_left _ _
    have hmatch : matchPat pat_proc_plain (procPlainDecl ++ suf) = some suf := rfl
    exact findFirst_isSome pat_proc_plain _ _ suf (by rw [hdrop]; exact hmatch)

/-- C3 amended, witnessed on a concrete miners.py with a file-hints
marker block and a plain proc declaration. -/
theorem c3_regex_fallback_only_when_no_marker_witness :
    update_miners_defaults ⟨none, some ("A\n".data ++ mFileBegin ++ "\nX\n".data ++ mFileEnd ++ ("\n".data ++ procPlainDecl ++ "\n".data)), none, none⟩
        (JVal.arr []) (JVal.arr []) (JVal.arr [])
      = Except.ok
          (⟨none,
            some (writeAtomicContent
              ("A\n".data ++ mFileBegin ++ new_file_payload (JVal.arr []) ++ mFileEnd ++ ("\n".data ++ procPlainDecl ++ "\n".data))),
            none,
            some ("A\n".data ++ mFileBegin ++ "\nX\n".data ++ mFileEnd ++ ("\n".data ++ procPlainDecl ++ "\n".data))⟩,
            true)
    ∧ findFirst pat_proc_plain
        ("A\n".data ++ mFileBegin ++ new_file_payload (JVal.arr []) ++ mFileEnd ++ ("\n".data ++ procPlainDecl ++ "\n".data)) ≠ none := by
  have h := c3_regex_fallback_only_when_no_marker "A\n".data "\nX\n".data "\n".data "\n".data
    (JVal.arr []) (JVal.arr []) (JVal.arr [])
    ⟨none, some ("A\n".data ++ mFileBegin ++ "\nX\n".data ++ mFileEnd ++ ("\n".data ++ procPlainDecl ++ "\n".data)), none, none⟩
    (by decide) (by decide) (by decide) (by decide) (by decide) (by decide) (by decide) rfl
  exact h

/-- C4 (counterexample): the payload is not inserted verbatim.  The
replacement string of `re.subn` is a template, so `\\` in a rendered
literal (produced by the serializer for any string containing a
backslash) collapses to a single backslash: with both markers occurring
exactly once (begin before end), the text inserted between them differs
from the payload. -/
theorem c4_payload_not_verbatim_cex :
    dumps_python (JVal.arr [JVal.str "a\\b".data]) = "[\n    \"a\\\\b\"\n]".data
    ∧ replace_between_marks "x<B>m<E>y".data "<B>".data "<E>".data "[\n    \"a\\\\b\"\n]".data
      = Except.ok ("x<B>[\n    \"a\\b\"\n]<E>y".data, true)
    ∧ "x<B>[\n    \"a\\b\"\n]<E>y".data
      ≠ "x".data ++ "<B>".data ++ "[\n    \"a\\\\b\"\n]".data ++ "<E>".data ++ "y".data := by
  decide

/-- C4 (amended): when the begin marker and the end marker each occur
exactly once in the source (begin before end), the span strictly between
them — including the trailing blank/tab run before the end marker — is
replaced by the regex-template expansion of the payload; for a payload
with no backslash (and not starting with a digit), as rendered literals
of backslash-free data are, that expansion is the payload verbatim, and
the markers and all text outside the span are preserved byte-for-byte. -/
theorem c4_marks_replace_span (pre mid suf bM eM p : List Char)
    (hbm : bM ≠ []) (hem : eM ≠ [])
    (h1 : occCount bM (pre ++ bM ++ mid ++ eM ++ suf) = 1)
    (h2 : occCount eM (pre ++ bM ++ mid ++ eM ++ suf) = 1)
    (hbs : p.contains '\\' = false) (hhd : headNotDigit p = true) :
    replace_between_marks (pre ++ bM ++ mid ++ eM ++ suf) bM eM p
      = Except.ok (pre ++ bM ++ p ++ eM ++ suf, true) := by
  have hparse := parse_wrap p hbs (headNotDigit_spec p hhd)
  have lead1 : leadsWith bM ((pre ++ bM ++ mid ++ eM ++ suf).drop pre.length) = true := by
    have hd1 : (pre ++ (bM ++ (mid ++ (eM ++ suf)))).drop pre.length
        = bM ++ (mid ++ (eM ++ suf)) := List.drop_left _ _
    simpa [List.append_assoc] using (hd1 ▸ leadsWith_append bM (mid ++ (eM ++ suf)) : _)
  have leadE : leadsWith eM ((mid ++ eM ++ suf).drop mid.length) = true := by
    have hd2 : (mid ++ (eM ++ suf)).drop mid.length = eM ++ suf := List.drop_left _ _
    simpa [List.append_assoc] using (hd2 ▸ leadsWith_append eM suf : _)
  have hle : occCount eM (mid ++ eM ++ suf) ≤ 1 := by
    have hs := occCount_suffix eM (pre ++ bM) (mid ++ eM ++ suf)
    have heq : (pre ++ bM) ++ (mid ++ eM ++ suf) = pre ++ bM ++ mid ++ eM ++ suf := by
      simp [List.append_assoc]
    rw [heq] at hs
    omega
  have hge := occCount_pos eM (mid ++ eM ++ suf) mid.length leadE
  have h2m : occCount eM (mid ++ eM ++ suf) = 1 := by omega
  exact marks_core pre mid suf bM eM p
    (fail_before_of_unique bM _ hbm pre.length h1 lead1)
    (fail_before_of_unique eM _ hem mid.length h2m leadE) hparse

/-- C4 amended, witnessed on a concrete source with single markers and a
backslash-free payload. -/
theorem c4_marks_replace_span_witness :
    occCount "<B>".data ("q\n".data ++ "<B>".data ++ " old \t ".data ++ "<E>".data ++ "\nz".data) = 1
    ∧ occCount "<E>".data ("q\n".data ++ "<B>".data ++ " old \t ".data ++ "<E>".data ++ "\nz".data) = 1
    ∧ replace_between_marks
        ("q\n".data ++ "<B>".data ++ " old \t ".data ++ "<E>".data ++ "\nz".data)
        "<B>".data "<E>".data "PAY".data
      = Except.ok ("q\n".data ++ "<B>".data ++ "PAY".data ++ "<E>".data ++ "\nz".data, true) := by
  refine ⟨by decide, by decide, ?_⟩
  exact c4_marks_replace_span "q\n".data " old \t ".data "\nz".data "<B>".data "<E>".data
    "PAY".data (by decide) (by decide) (by decide) (by decide) (by decide) (by decide)

/-- C5: replacements use `count=1`, so only the first (leftmost)
matching span is rewritten and every later textually matching site
survives byte-for-byte, on both paths.  Regex path: when the first
candidate that matches does so first at the first site, the first site
alone is replaced and the second identical site stays inside the
preserved suffix.  Marker path: with two marker blocks, only the first
pair's span is replaced; the second block, markers included, is kept
verbatim. -/
theorem c5_first_site_only :
    (∀ (pre site mid2 suf repl : List Char) (p : Pat) (ps : List Pat),
      repl.contains '\\' = false →
      (∀ j < pre.length,
        matchPat p ((pre ++ (site ++ (mid2 ++ (site ++ suf)))).drop j) = none) →
      matchPat p (site ++ (mid2 ++ (site ++ suf))) = some (mid2 ++ (site ++ suf)) →
      replace_first (pre ++ (site ++ (mid2 ++ (site ++ suf)))) (p :: ps) repl
        = Except.ok (pre ++ repl ++ (mid2 ++ (site ++ suf)), true, some p))
    ∧ (∀ (pre m1 mid2 m2 suf bM eM payload : List Char),
      payload.contains '\\' = false → headNotDigit payload = true →
      (∀ j < pre.length, leadsWith bM
        ((pre ++ bM ++ m1 ++ eM ++ (mid2 ++ bM ++ m2 ++ eM ++ suf)).drop j) = false) →
      (∀ j < m1.length, leadsWith eM
        ((m1 ++ eM ++ (mid2 ++ bM ++ m2 ++ eM ++ suf)).drop j) = false) →
      replace_between_marks (pre ++ bM ++ m1 ++ eM ++ (mid2 ++ bM ++ m2 ++ eM ++ suf))
          bM eM payload
        = Except.ok (pre ++ bM ++ payload ++ eM ++ (mid2 ++ bM ++ m2 ++ eM ++ suf), true)) := by
  constructor
  · intro pre site mid2 suf repl p ps hbs hfail hmatch
    have hfind := findFirst_at p pre (site ++ (mid2 ++ (site ++ suf)))
      (mid2 ++ (site ++ suf)) hfail hmatch
    exact replace_first_cons_match p ps _ repl pre (mid2 ++ (site ++ suf)) hbs hfind
  · intro pre m1 mid2 m2 suf bM eM payload hbs hhd hB hE
    exact marks_core pre m1 (mid2 ++ bM ++ m2 ++ eM ++ suf) bM eM payload hB hE
      (parse_wrap payload hbs (headNotDigit_spec payload hhd))

/-- C5, witnessed: a packages.py with two plain `DEFAULT_BAD_PACKAGES`
declarations (only the first is rewritten), and a miners-style text with
two identical marker blocks (only the first is rewritten). -/
theorem c5_first_site_only_witness :
    replace_first
        ("q\n".data ++ ("DEFAULT_BAD_PACKAGES = \x7b\x7d".data ++ ("\n".data ++ ("DEFAULT_BAD_PACKAGES = \x7b\x7d".data ++ "\n".data))))
        [pat_bad_plain] "R".data
      = Except.ok
          ("q\n".data ++ "R".data ++ ("\n".data ++ ("DEFAULT_BAD_PACKAGES = \x7b\x7d".data ++ "\n".data)),
           true, some pat_bad_plain)
    ∧ replace_between_marks
        ("x".data ++ "<B>".data ++ "u".data ++ "<E>".data ++ ("\n".data ++ "<B>".data ++ "v".data ++ "<E>".data ++ "w".data))
        "<B>".data "<E>".data "P".data
      = Except.ok
          ("x".data ++ "<B>".data ++ "P".data ++ "<E>".data ++ ("\n".data ++ "<B>".data ++ "v".data ++ "<E>".data ++ "w".data),
           true) := by
  constructor
  · exact c5_first_site_only.1 "q\n".data "DEFAULT_BAD_PACKAGES = \x7b\x7d".data "\n".data
      "\n".data "R".data pat_bad_plain [] (by decide) (by decide) (by decide)
  · exact c5_first_site_only.2 "x".data "u".data "\n".data "v".data "w".data
      "<B>".data "<E>".data "P".data (by decide) (by decide) (by decide) (by decide)

/-- C9: whatever `write_atomic` is asked to write, the bytes that reach
the target file end with a newline: content already ending in `"\n"` is
written unchanged, otherwise a single `"\n"` is appended; consequently a
packages.py write-back that reports a change always leaves a
newline-terminated file. -/
theorem c9_written_content_ends_with_newline :
    (∀ c, endsWithNl (writeAtomicContent c) = true)
    ∧ (∀ c, endsWithNl c = false → writeAtomicContent c = c ++ ['\n'])
    ∧ (∀ c, endsWithNl c = true → writeAtomicContent c = c)
    ∧ (∀ (fs : FS) (b t : JVal) (fs2 : FS),
        update_packages_defaults fs b t = Except.ok (fs2, true) →
        ∃ w, fs2.packagesFile = some w ∧ endsWithNl w = true) := by
  have hw : ∀ c, endsWithNl (writeAtomicContent c) = true := by
    intro c
    by_cases h : endsWithNl c = true
    · simpa [writeAtomicContent, h] using h
    · simp only [writeAtomicContent, h, Bool.false_eq_true, if_false]
      exact endsWithNl_append_nl c
  refine ⟨hw, ?_, ?_, ?_⟩
  · intro c h
    simp [writeAtomicContent, h]
  · intro c h
    simp [writeAtomicContent, h]
  · intro fs b t fs2 h
    cases hp : fs.packagesFile with
    | none => simp [update_packages_defaults, hp] at h
    | some src =>
      cases hr1 : replace_first src [pat_bad_annot, pat_bad_plain] (new_bad_payload b) with
      | error e => simp [update_packages_defaults, hp, hr1] at h
      | ok o1 =>
        obtain ⟨s1, c1, u1⟩ := o1
        cases hr2 : replace_first s1 [pat_targets_annot, pat_targets_plain]
            (new_targets_payload t) with
        | error e => simp [update_packages_defaults, hp, hr1, hr2] at h
        | ok o2 =>
          obtain ⟨s2, c2, u2⟩ := o2
          simp only [update_packages_defaults, hp, hr1, hr2] at h
          split at h
          · simp only [Except.ok.injEq, Prod.mk.injEq] at h
            rcases h with ⟨h1, -⟩
            subst h1
            exact ⟨writeAtomicContent s2, rfl, hw s2⟩
          · simp at h

/-- C9, witnessed on concrete contents with and without a final newline
and on the concrete packages run. -/
theorem c9_written_content_ends_with_newline_witness :
    endsWithNl "abc".data = false
    ∧ writeAtomicContent "abc".data = "abc".data ++ ['\n']
    ∧ endsWithNl "abc\n".data = true
    ∧ writeAtomicContent "abc\n".data = "abc\n".data
    ∧ update_packages_defaults fsPkgs0 (JVal.obj []) (JVal.arr [])
        = Except.ok (⟨some pkgsSrc1, none, some pkgsSrc0, none⟩, true)
    ∧ (∃ w, (⟨some pkgsSrc1, none, some pkgsSrc0, none⟩ : FS).packagesFile = some w
        ∧ endsWithNl w = true) := by
  refine ⟨by decide, ?_, by decide, ?_, by decide, ?_⟩
  · exact c9_written_content_ends_with_newline.2.1 "abc".data (by decide)
  · exact c9_written_content_ends_with_newline.2.2.1 "abc\n".data (by decide)
  · exact c9_written_content_ends_with_newline.2.2.2 fsPkgs0 (JVal.obj []) (JVal.arr [])
      ⟨some pkgsSrc1, none, some pkgsSrc0, none⟩ (by decide)

/-- C7: the three optional documents are loaded inside
`try/except FileNotFoundError`; when all three files are absent, each
value becomes the empty list, the invocation does not abort there, the
patching of both targets still runs and completes, and the whole run is
indistinguishable from one where the documents exist with
`{"patterns": []}`. -/
theorem c7_missing_optional_files_tolerated
    (d v : Bool) (inp : Inputs) (fs : FS) (bp xt : JVal)
    (tf : List (List Char × JVal)) (src : List Char)
    (hib : inp.bad_packages_json = some bp)
    (hit : inp.targets_json = some (JVal.obj tf))
    (hif : inp.miner_file_hints_json = none)
    (hip : inp.miner_proc_hints_json = none)
    (his : inp.suspicious_patterns_json = none)
    (hxt : jget (JVal.obj tf) "extra_targets".data (JVal.arr []) = Except.ok xt)
    (hp : fs.packagesFile = some src)
    (hb : (new_bad_payload bp).contains '\\' = false)
    (ht : (new_targets_payload xt).contains '\\' = false) :
    loadOptionalPatterns none = Except.ok (JVal.arr [])
    ∧ ∃ (fs2 : FS) (cp cm : Bool),
        mainRun d v inp fs = MainResult.ok fs2 cp cm (exitCode (cp || cm))
        ∧ mainRun d v
            ⟨some bp, some (JVal.obj tf),
             some (JVal.obj [("patterns".data, JVal.arr [])]),
             some (JVal.obj [("patterns".data, JVal.arr [])]),
             some (JVal.obj [("patterns".data, JVal.arr [])])⟩ fs
          = MainResult.ok fs2 cp cm (exitCode (cp || cm)) := by
  obtain ⟨⟨fs1, cp⟩, h7⟩ := update_packages_total fs bp xt src hp hb ht
  obtain ⟨⟨fs2, cm⟩, h8⟩ := update_miners_total fs1 (JVal.arr []) (JVal.arr []) (JVal.arr [])
    (by decide) (by decide) (by decide)
  refine ⟨rfl, fs2, cp, cm, ?_, ?_⟩
  · exact mainRun_eq d v inp fs bp (JVal.obj tf) xt
      (JVal.arr []) (JVal.arr []) (JVal.arr []) fs1 fs2 cp cm
      (by rw [hib]; rfl) (by rw [hit]; rfl) hxt
      (by rw [hif]; rfl) (by rw [hip]; rfl) (by rw [his]; rfl) h7 h8
  · exact mainRun_eq d v _ fs bp (JVal.obj tf) xt
      (JVal.arr []) (JVal.arr []) (JVal.arr []) fs1 fs2 cp cm
      rfl rfl hxt rfl rfl rfl h7 h8

/-- C7, witnessed on the concrete empty-data run with all optional files
absent. -/
theorem c7_missing_optional_files_tolerated_witness :
    loadOptionalPatterns none = Except.ok (JVal.arr [])
    ∧ ∃ (fs2 : FS) (cp cm : Bool),
        mainRun false false inpEmpty fsPkgs0 = MainResult.ok fs2 cp cm (exitCode (cp || cm))
        ∧ mainRun false false
            ⟨some (JVal.obj []), some (JVal.obj []),
             some (JVal.obj [("patterns".data, JVal.arr [])]),
             some (JVal.obj [("patterns".data, JVal.arr [])]),
             some (JVal.obj [("patterns".data, JVal.arr [])])⟩ fsPkgs0
          = MainResult.ok fs2 cp cm (exitCode (cp || cm)) :=
  c7_missing_optional_files_tolerated false false inpEmpty fsPkgs0
    (JVal.obj []) (JVal.arr []) [] pkgsSrc0
    rfl rfl rfl rfl rfl rfl rfl (by decide) (by decide)

/-- C8: a missing packages.py raises `FileNotFoundError` before anything
is written — the run aborts with the filesystem exactly as it was; a
missing miners.py is non-fatal — `update_miners_defaults` returns
`changed = false` without raising, the run completes normally and
miners.py (and its backup) stay absent. -/
theorem c8_target_file_handling :
    (∀ (d v : Bool) (inp : Inputs) (fs : FS) (bp td xt fhv phv spv : JVal),
      load_json inp.bad_packages_json = Except.ok bp →
      load_json inp.targets_json = Except.ok td →
      jget td "extra_targets".data (JVal.arr []) = Except.ok xt →
      loadOptionalPatterns inp.miner_file_hints_json = Except.ok fhv →
      loadOptionalPatterns inp.miner_proc_hints_json = Except.ok phv →
      loadOptionalPatterns inp.suspicious_patterns_json = Except.ok spv →
      fs.packagesFile = none →
      mainRun d v inp fs = MainResult.fatal fs PyErr.fileNotFound)
    ∧ (∀ (d v : Bool) (inp : Inputs) (fs : FS) (bp td xt fhv phv spv : JVal)
        (src : List Char),
      load_json inp.bad_packages_json = Except.ok bp →
      load_json inp.targets_json = Except.ok td →
      jget td "extra_targets".data (JVal.arr []) = Except.ok xt →
      loadOptionalPatterns inp.miner_file_hints_json = Except.ok fhv →
      loadOptionalPatterns inp.miner_proc_hints_json = Except.ok phv →
      loadOptionalPatterns inp.suspicious_patterns_json = Except.ok spv →
      fs.packagesFile = some src →
      fs.minersFile = none →
      (new_bad_payload bp).contains '\\' = false →
      (new_targets_payload xt).contains '\\' = false →
      ∃ (fs1 : FS) (cp : Bool),
        mainRun d v inp fs = MainResult.ok fs1 cp false (exitCode (cp || false))
        ∧ fs1.minersFile = none ∧ fs1.minersBak = fs.minersBak) := by
  constructor
  · intro d v inp fs bp td xt fhv phv spv h1 h2 h3 h4 h5 h6 hpk
    have hup : update_packages_defaults fs bp xt
        = Except.error (fs, PyErr.fileNotFound) := by
      simp [update_packages_defaults, hpk]
    simp only [mainRun, h1, h2, h3, h4, h5, h6, hup]
  · intro d v inp fs bp td xt fhv phv spv src h1 h2 h3 h4 h5 h6 hpk hmn hb ht
    obtain ⟨⟨fs1, cp⟩, h7⟩ := update_packages_total fs bp xt src hpk hb ht
    obtain ⟨hmf, hmb⟩ := update_packages_ok_fields fs bp xt fs1 cp h7
    have hmn1 : fs1.minersFile = none := by rw [hmf, hmn]
    have h8 := update_miners_none fs1 fhv phv spv hmn1
    exact ⟨fs1, cp,
      mainRun_eq d v inp fs bp td xt fhv phv spv fs1 fs1 cp false
        h1 h2 h3 h4 h5 h6 h7 h8, hmn1, hmb⟩

/-- C8, witnessed: a run with packages.py absent aborts fatally with the
filesystem untouched; a run with packages.py present and miners.py
absent completes with `changed_min = false`. -/
theorem c8_target_file_handling_witness :
    mainRun false false inpEmpty ⟨none, none, none, none⟩
      = MainResult.fatal ⟨none, none, none, none⟩ PyErr.fileNotFound
    ∧ ∃ (fs1 : FS) (cp : Bool),
        mainRun false false inpEmpty fsPkgs0 = MainResult.ok fs1 cp false (exitCode (cp || false))
        ∧ fs1.minersFile = none ∧ fs1.minersBak = fsPkgs0.minersBak := by
  constructor
  · exact c8_target_file_handling.1 false false inpEmpty ⟨none, none, none, none⟩
      (JVal.obj []) (JVal.obj []) (JVal.arr []) (JVal.arr []) (JVal.arr []) (JVal.arr [])
      rfl rfl rfl rfl rfl rfl rfl
  · exact c8_target_file_handling.2 false false inpEmpty fsPkgs0
      (JVal.obj []) (JVal.obj []) (JVal.arr []) (JVal.arr []) (JVal.arr []) (JVal.arr [])
      pkgsSrc0 rfl rfl rfl rfl rfl rfl rfl rfl (by decide) (by decide)

/-- C10: `.get(key, default)` tolerates a present document whose
top-level object lacks the key: an optional hints document without
`"patterns"` yields the empty list exactly as an absent file does, a
targets.json without `"extra_targets"` yields the empty list, and the
invocation does not fail: the whole run equals the run with the optional
files absent. -/
theorem c10_missing_keys_default_empty
    (d v : Bool) (inp : Inputs) (fs : FS) (bp : JVal) (src : List Char)
    (tf f1 f2 f3 : List (List Char × JVal))
    (hib : inp.bad_packages_json = some bp)
    (hit : inp.targets_json = some (JVal.obj tf))
    (hif : inp.miner_file_hints_json = some (JVal.obj f1))
    (hip : inp.miner_proc_hints_json = some (JVal.obj f2))
    (his : inp.suspicious_patterns_json = some (JVal.obj f3))
    (hxt : lookupField tf "extra_targets".data = none)
    (hk1 : lookupField f1 "patterns".data = none)
    (hk2 : lookupField f2 "patterns".data = none)
    (hk3 : lookupField f3 "patterns".data = none)
    (hp : fs.packagesFile = some src)
    (hb : (new_bad_payload bp).contains '\\' = false) :
    jget (JVal.obj tf) "extra_targets".data (JVal.arr []) = Except.ok (JVal.arr [])
    ∧ loadOptionalPatterns (some (JVal.obj f1)) = Except.ok (JVal.arr [])
    ∧ loadOptionalPatterns (some (JVal.obj f2)) = Except.ok (JVal.arr [])
    ∧ loadOptionalPatterns (some (JVal.obj f3)) = Except.ok (JVal.arr [])
    ∧ ∃ (fs2 : FS) (cp cm : Bool),
        mainRun d v inp fs = MainResult.ok fs2 cp cm (exitCode (cp || cm))
        ∧ mainRun d v ⟨some bp, some (JVal.obj tf), none, none, none⟩ fs
          = MainResult.ok fs2 cp cm (exitCode (cp || cm)) := by
  have hjt : jget (JVal.obj tf) "extra_targets".data (JVal.arr [])
      = Except.ok (JVal.arr []) := by
    simp [jget, hxt]
  have hl1 : loadOptionalPatterns (some (JVal.obj f1)) = Except.ok (JVal.arr []) := by
    simp [loadOptionalPatterns, load_json, jget, hk1]
  have hl2 : loadOptionalPatterns (some (JVal.obj f2)) = Except.ok (JVal.arr []) := by
    simp [loadOptionalPatterns, load_json, jget, hk2]
  have hl3 : loadOptionalPatterns (some (JVal.obj f3)) = Except.ok (JVal.arr []) := by
    simp [loadOptionalPatterns, load_json, jget, hk3]
  obtain ⟨⟨fs1, cp⟩, h7⟩ := update_packages_total fs bp (JVal.arr []) src hp hb (by decide)
  obtain ⟨⟨fs2, cm⟩, h8⟩ := update_miners_total fs1 (JVal.arr []) (JVal.arr []) (JVal.arr [])
    (by decide) (by decide) (by decide)
  refine ⟨hjt, hl1, hl2, hl3, fs2, cp, cm, ?_, ?_⟩
  · exact mainRun_eq d v inp fs bp (JVal.obj tf) (JVal.arr [])
      (JVal.arr []) (JVal.arr []) (JVal.arr []) fs1 fs2 cp cm
      (by rw [hib]; rfl) (by rw [hit]; rfl) hjt
      (by rw [hif]; exact hl1) (by rw [hip]; exact hl2) (by rw [his]; exact hl3) h7 h8
  · exact mainRun_eq d v _ fs bp (JVal.obj tf) (JVal.arr [])
      (JVal.arr []) (JVal.arr []) (JVal.arr []) fs1 fs2 cp cm
      rfl rfl hjt rfl rfl rfl h7 h8

/-- C10, witnessed with concrete one-field objects lacking the expected
keys. -/
theorem c10_missing_keys_default_empty_witness :
    jget (JVal.obj [("other".data, JVal.arr [])]) "extra_targets".data (JVal.arr [])
      = Except.ok (JVal.arr [])
    ∧ loadOptionalPatterns (some (JVal.obj [("other".data, JVal.arr [])]))
      = Except.ok (JVal.arr [])
    ∧ ∃ (fs2 : FS) (cp cm : Bool),
        mainRun false false
          ⟨some (JVal.obj []), some (JVal.obj [("other".data, JVal.arr [])]),
           some (JVal.obj [("other".data, JVal.arr [])]),
           some (JVal.obj [("other".data, JVal.arr [])]),
           some (JVal.obj [("other".data, JVal.arr [])])⟩ fsPkgs0
          = MainResult.ok fs2 cp cm (exitCode (cp || cm))
        ∧ mainRun false false
            ⟨some (JVal.obj []), some (JVal.obj [("other".data, JVal.arr [])]), none, none, none⟩ fsPkgs0
          = MainResult.ok fs2 cp cm (exitCode (cp || cm)) := by
  have h := c10_missing_keys_default_empty false false
    ⟨some (JVal.obj []), some (JVal.obj [("other".data, JVal.arr [])]),
     some (JVal.obj [("other".data, JVal.arr [])]),
     some (JVal.obj [("other".data, JVal.arr [])]),
     some (JVal.obj [("other".data, JVal.arr [])])⟩ fsPkgs0
    (JVal.obj []) pkgsSrc0
    [("other".data, JVal.arr [])] [("other".data, JVal.arr [])]
    [("other".data, JVal.arr [])] [("other".data, JVal.arr [])]
    rfl rfl rfl rfl rfl rfl rfl rfl rfl rfl (by decide)
  exact ⟨h.1, h.2.1, h.2.2.2.2⟩
